import Mathlib

/-!
# Verification of the ISO11783-CAN-Stack network layer

A shallow embedding of the stack's network-manager, identifier, storage and
busload code (from `src/isobus/src/can_network_manager.cpp`,
`src/isobus/src/can_identifier.cpp`, `src/isobus/src/storage_manager.cpp`,
`src/hardware_integration/src/file_storage_plugin.cpp`), together with proofs
and refutations of the specification's claims about it.

Machine integers are modelled as `Nat` with explicit masking where the C++
applies masks; the mutable `shared_ptr` graph of control functions is
modelled as a store of records indexed by allocation order.
-/

namespace IsobusModel

/-! ## Constants

The headers defining these constants (`can_constants.hpp`,
`can_identifier.hpp`, `can_network_manager.hpp`) are not under `src/`;
the values below are the ones the spec states (§6 "Addresses of note",
§4.3 identifier masks, §4.5 maximum length) and that the `.cpp` sources
use by name. -/

/-- 0xFE, the null / unable-to-claim address (spec §6). -/
def NULL_CAN_ADDRESS : Nat := 0xFE

/-- 0xFF, the global broadcast address (spec §6). -/
def BROADCAST_CAN_ADDRESS : Nat := 0xFF

/-- Modelled from the spec: sentinel identifier marking an unusable frame
(`DEFAULT_IDENTIFIER` in the missing `can_network_manager.hpp`); any value
outside the 29-bit range works, since `construct_frame` masks every real
identifier with `0x1FFFFFFF`. -/
def DEFAULT_IDENTIFIER : Nat := 0xFFFFFFFF

/-- Mask of the upper nibble of the PDU-format byte of a 29-bit identifier
(`PDU2_FORMAT_MASK` of `can_identifier.hpp`; spec §4.3: PDU-format byte
≥ 0xF0 means broadcast). -/
def PDU2_FORMAT_MASK : Nat := 0xF00000

/-- 18-bit broadcast PGN mask (spec §4.3). -/
def BROADCAST_PGN_MASK : Nat := 0x3FFFF

/-- Destination-specific PGN mask, PS byte removed (spec §4.3). -/
def DESTINATION_SPECIFIC_PGN_MASK : Nat := 0x3FF00

/-- Returned by `get_parameter_group_number` for 11-bit identifiers. -/
def UNDEFINED_PARAMETER_GROUP_NUMBER : Nat := 0xFFFFFFFF

/-- A classical CAN frame carries at most 8 data bytes. -/
def CAN_DATA_LENGTH : Nat := 8

/-- The address-claim parameter group number, PGN 0x00EE00. -/
def AddressClaim_PGN : Nat := 0xEE00

/-- The commanded-address parameter group number, PGN 0x00FED8. -/
def CommandedAddress_PGN : Nat := 0xFED8

/-- The PGN-request parameter group number, PGN 0x00EA00. -/
def ParameterGroupNumberRequest_PGN : Nat := 0xEA00

/-- Longest message the stack will accept for transmission
(`CANMessage::ABSOLUTE_MAX_MESSAGE_LENGTH`, spec §4.5: 1785 bytes). -/
def ABSOLUTE_MAX_MESSAGE_LENGTH : Nat := 1785

/-- Busload bucket length in milliseconds (`BUSLOAD_UPDATE_FREQUENCY_MS`). -/
def BUSLOAD_UPDATE_FREQUENCY_MS : Nat := 100

/-- Busload rolling-window length in milliseconds (`BUSLOAD_SAMPLE_WINDOW_MS`,
spec §4.5: last 10 s). -/
def BUSLOAD_SAMPLE_WINDOW_MS : Nat := 10000

/-! ## CANIdentifier (`src/isobus/src/can_identifier.cpp`)

A `CANIdentifier` wraps a raw 32-bit value; the getters below are the
line-for-line translations of the member functions, with the raw value
passed explicitly. -/

namespace CANIdentifier

/-- `CANIdentifier::NULL_ADDRESS`. -/
def NULL_ADDRESS : Nat := 0xFE

/-- `CANIdentifier::GLOBAL_ADDRESS`. -/
def GLOBAL_ADDRESS : Nat := 0xFF

/-- `CANIdentifier::get_identifier_type`: identifiers that fit in 11 bits are
`Standard`, all larger raw values are `Extended`. `true` means extended. -/
def is_extended_type (raw : Nat) : Bool := ¬ (raw ≤ 0x7FF)

/-- `CANIdentifier::get_priority`: bits 26–28 for extended identifiers,
priority 0 (highest) for standard ones. -/
def get_priority (raw : Nat) : Nat :=
  if is_extended_type raw then (raw >>> 26) &&& 0x07 else 0

/-- `CANIdentifier::get_parameter_group_number`: destination-specific PGNs
drop the PS byte via `0x3FF00`, broadcast PGNs keep 18 bits via `0x3FFFF`;
standard identifiers have no PGN. -/
def get_parameter_group_number (raw : Nat) : Nat :=
  if is_extended_type raw then
    if PDU2_FORMAT_MASK &&& raw < PDU2_FORMAT_MASK then
      (raw >>> 8) &&& DESTINATION_SPECIFIC_PGN_MASK
    else
      (raw >>> 8) &&& BROADCAST_PGN_MASK
  else UNDEFINED_PARAMETER_GROUP_NUMBER

/-- `CANIdentifier::get_destination_address`: the PS byte for extended
destination-specific identifiers, otherwise the global address. -/
def get_destination_address (raw : Nat) : Nat :=
  if is_extended_type raw ∧ PDU2_FORMAT_MASK &&& raw < PDU2_FORMAT_MASK then
    (raw >>> 8) &&& 0xFF
  else GLOBAL_ADDRESS

/-- `CANIdentifier::get_source_address`: the low byte for extended
identifiers, otherwise the global address. -/
def get_source_address (raw : Nat) : Nat :=
  if is_extended_type raw then raw &&& 0xFF else GLOBAL_ADDRESS

end CANIdentifier

/-! ## CAN frames and `construct_frame`
(`src/isobus/src/can_network_manager.cpp` lines 611–667) -/

/-- A hardware-level CAN frame (`CANMessageFrame`); `data` holds the bytes
the `memcpy` copied, `dataLength` the length field. -/
structure CANMessageFrame where
  identifier : Nat
  data : List Nat
  dataLength : Nat
  isExtendedFrame : Bool
deriving Repr, DecidableEq

/-- The frame `construct_frame` starts from: `txFrame.identifier =
DEFAULT_IDENTIFIER` and nothing copied. -/
def rejectedFrame : CANMessageFrame :=
  { identifier := DEFAULT_IDENTIFIER, data := [], dataLength := 0, isExtendedFrame := false }

/-- The manual identifier encoding inside `CANNetworkManager::construct_frame`
(the value of its local `identifier` after the branch on the destination),
starting from `priority & 0x07) << 26 | (sourceAddress & 0xFF)`. -/
def construct_frame_identifier (sourceAddress destAddress parameterGroupNumber priority : Nat) :
    Nat :=
  if BROADCAST_CAN_ADDRESS = destAddress then
    if 0xF000 ≤ parameterGroupNumber &&& 0xF000 then
      (((priority &&& 0x07) <<< 26) ||| (sourceAddress &&& 0xFF)) |||
        ((parameterGroupNumber &&& 0x3FFFF) <<< 8)
    else
      ((((priority &&& 0x07) <<< 26) ||| (sourceAddress &&& 0xFF)) ||| (destAddress <<< 8)) |||
        ((parameterGroupNumber &&& 0x3FF00) <<< 8)
  else
    if parameterGroupNumber &&& 0xF000 < 0xF000 then
      ((((priority &&& 0x07) <<< 26) ||| (sourceAddress &&& 0xFF)) ||| (destAddress <<< 8)) |||
        ((parameterGroupNumber &&& 0x3FF00) <<< 8)
    else
      DEFAULT_IDENTIFIER

/-- `CANNetworkManager::construct_frame`. The `data` pointer is `none` when
the C++ pointer is null; `size` is the separate length argument, and the
copied payload is the first `size` bytes. A frame whose `identifier` is
`DEFAULT_IDENTIFIER` is the function's rejection signal. -/
def construct_frame (sourceAddress destAddress parameterGroupNumber priority : Nat)
    (data : Option (List Nat)) (size : Nat) : CANMessageFrame :=
  if NULL_CAN_ADDRESS ≠ destAddress ∧ priority ≤ 7 ∧ size ≤ CAN_DATA_LENGTH ∧ data ≠ none then
    if DEFAULT_IDENTIFIER ≠
        construct_frame_identifier sourceAddress destAddress parameterGroupNumber priority then
      { identifier :=
          construct_frame_identifier sourceAddress destAddress parameterGroupNumber priority
            &&& 0x1FFFFFFF,
        data := (data.getD []).take size,
        dataLength := size,
        isExtendedFrame := true }
    else rejectedFrame
  else rejectedFrame

/-! ## Bit-arithmetic helpers

These rewrite the masks and shifts of the code into division and remainder
so that `omega` can reason about them. -/

theorem and_two_pow_sub_one (x n : Nat) : x &&& (2 ^ n - 1) = x % 2 ^ n :=
  Nat.and_pow_two_sub_one_eq_mod x n

theorem shiftRight_div (x n : Nat) : x >>> n = x / 2 ^ n :=
  Nat.shiftRight_eq_div_pow x n

theorem shiftLeft_mul (x n : Nat) : x <<< n = x * 2 ^ n :=
  Nat.shiftLeft_eq x n

/-- A mask that keeps a window of `m` bits starting at bit `k` extracts
`x / 2^k % 2^m`, re-shifted into place. -/
theorem and_window (x k m : Nat) :
    x &&& ((2 ^ m - 1) <<< k) = x / 2 ^ k % 2 ^ m * 2 ^ k := by
  have hr : x / 2 ^ k % 2 ^ m * 2 ^ k = ((x >>> k) % 2 ^ m) <<< k := by
    rw [shiftLeft_mul, shiftRight_div]
  rw [hr]
  apply Nat.eq_of_testBit_eq
  intro i
  simp only [Nat.testBit_and, Nat.testBit_shiftLeft, Nat.testBit_two_pow_sub_one,
    Nat.testBit_mod_two_pow, Nat.testBit_shiftRight]
  by_cases hk : k ≤ i
  · have : k + (i - k) = i := by omega
    simp [hk, this, Bool.and_comm, Bool.and_left_comm]
  · simp [hk]

theorem and_7 (x : Nat) : x &&& 0x07 = x % 8 := by
  have h := and_two_pow_sub_one x 3; norm_num at h; exact h

theorem and_FF (x : Nat) : x &&& 0xFF = x % 256 := by
  have h := and_two_pow_sub_one x 8; norm_num at h; exact h

theorem and_3FFFF (x : Nat) : x &&& 0x3FFFF = x % 262144 := by
  have h := and_two_pow_sub_one x 18; norm_num at h; exact h

theorem and_1FFFFFFF (x : Nat) : x &&& 0x1FFFFFFF = x % 536870912 := by
  have h := and_two_pow_sub_one x 29; norm_num at h; exact h

theorem and_3FF00 (x : Nat) : x &&& 0x3FF00 = x / 256 % 1024 * 256 := by
  have h := and_window x 8 10; norm_num at h; exact h

theorem and_F000 (x : Nat) : x &&& 0xF000 = x / 4096 % 16 * 4096 := by
  have h := and_window x 12 4; norm_num at h; exact h

theorem and_F00000 (x : Nat) : x &&& 0xF00000 = x / 1048576 % 16 * 1048576 := by
  have h := and_window x 20 4; norm_num at h; exact h

theorem or_disjoint (a b k : Nat) (h : b < 2 ^ k) :
    (a <<< k) ||| b = a * 2 ^ k + b := by
  rw [shiftLeft_mul, Nat.mul_comm a (2 ^ k), ← Nat.mul_add_lt_is_or h a,
    Nat.mul_comm (2 ^ k) a]

theorem or_rotate (a b c : Nat) : (a ||| b) ||| c = (a ||| c) ||| b := by
  rw [Nat.or_assoc, Nat.or_comm b c, ← Nat.or_assoc]

/-- The identifier built by `construct_frame`, in closed arithmetic form:
broadcast (PDU2) form. -/
theorem construct_identifier_pdu2 (src pgn p : Nat)
    (hp : p ≤ 7) (hs : src ≤ 255) (hg : pgn ≤ 0x3FFFF) :
    (((p &&& 0x07) <<< 26) ||| (src &&& 0xFF)) ||| ((pgn &&& 0x3FFFF) <<< 8) =
      p * 2 ^ 26 + pgn * 2 ^ 8 + src := by
  have h7 : p &&& 0x07 = p := by rw [and_7]; omega
  have hFF : src &&& 0xFF = src := by rw [and_FF]; omega
  have h18 : pgn &&& 0x3FFFF = pgn := by rw [and_3FFFF]; omega
  rw [h7, hFF, h18, or_rotate (p <<< 26) src (pgn <<< 8)]
  have step1 : (p <<< 26) ||| (pgn <<< 8) = (p * 2 ^ 18 + pgn) <<< 8 := by
    rw [or_disjoint p (pgn <<< 8) 26 (by simp only [shiftLeft_mul]; norm_num; omega)]
    simp only [shiftLeft_mul]; ring
  rw [step1, or_disjoint _ src 8 (by norm_num; omega)]
  ring

/-- The identifier built by `construct_frame`, in closed arithmetic form:
destination-specific (PDU1) form. -/
theorem construct_identifier_pdu1 (src dst pgn p : Nat)
    (hp : p ≤ 7) (hs : src ≤ 255) (hd : dst ≤ 255) (_hg : pgn ≤ 0x3FFFF) :
    ((((p &&& 0x07) <<< 26) ||| (src &&& 0xFF)) ||| (dst <<< 8)) |||
        ((pgn &&& 0x3FF00) <<< 8) =
      p * 2 ^ 26 + pgn / 256 % 1024 * 2 ^ 16 + dst * 2 ^ 8 + src := by
  have h7 : p &&& 0x07 = p := by rw [and_7]; omega
  have hFF : src &&& 0xFF = src := by rw [and_FF]; omega
  rw [h7, hFF, and_3FF00]
  have hq : pgn / 256 % 1024 < 1024 := Nat.mod_lt _ (by norm_num)
  rw [or_rotate ((p <<< 26) ||| src) (dst <<< 8) ((pgn / 256 % 1024 * 256) <<< 8),
    or_rotate (p <<< 26) src ((pgn / 256 % 1024 * 256) <<< 8),
    or_rotate ((p <<< 26) ||| ((pgn / 256 % 1024 * 256) <<< 8)) src (dst <<< 8)]
  have step1 : (p <<< 26) ||| ((pgn / 256 % 1024 * 256) <<< 8) =
      (p * 2 ^ 10 + pgn / 256 % 1024) <<< 16 := by
    rw [or_disjoint p _ 26 (by simp only [shiftLeft_mul]; norm_num; omega)]
    simp only [shiftLeft_mul]; ring
  rw [step1]
  have step2 : ((p * 2 ^ 10 + pgn / 256 % 1024) <<< 16) ||| (dst <<< 8) =
      ((p * 2 ^ 10 + pgn / 256 % 1024) * 2 ^ 8 + dst) <<< 8 := by
    rw [or_disjoint _ (dst <<< 8) 16 (by simp only [shiftLeft_mul]; norm_num; omega)]
    simp only [shiftLeft_mul]; ring
  rw [step2, or_disjoint _ src 8 (by norm_num; omega)]
  ring

/-- C3, the claim as written, refuted: a destination-specific PGN with a
non-zero low byte does not survive the encode/decode round trip. At
(priority 6, pgn 0xE801, src 0x10, dst 0x20) the encoded identifier decodes
to PGN 0xE800, not 0xE801. -/
theorem C3_identifier_roundtrip_counterexample :
    ¬ (CANIdentifier.get_priority
          ((construct_frame 0x10 0x20 0xE801 6 (some [0, 0, 0, 0, 0, 0, 0, 0]) 8).identifier) = 6 ∧
       CANIdentifier.get_parameter_group_number
          ((construct_frame 0x10 0x20 0xE801 6 (some [0, 0, 0, 0, 0, 0, 0, 0]) 8).identifier) = 0xE801 ∧
       CANIdentifier.get_source_address
          ((construct_frame 0x10 0x20 0xE801 6 (some [0, 0, 0, 0, 0, 0, 0, 0]) 8).identifier) = 0x10 ∧
       CANIdentifier.get_destination_address
          ((construct_frame 0x10 0x20 0xE801 6 (some [0, 0, 0, 0, 0, 0, 0, 0]) 8).identifier) = 0x20) := by
  decide

/-- C3 (amended): the encode/decode round trip holds for every in-range
tuple (priority ≤ 7, pgn ≤ 0x3FFFF, src ≤ 255, dst ≤ 255, dst not the null
address) in which either (a) the PGN is in PDU2 format (format nibble 0xF)
and the destination is the global address, or (b) the PGN is in PDU1 format
with its low byte zero (the PS byte is not part of a PDU1 PGN) and the
encode does not degenerate to an 11-bit identifier (priority 0, pgn 0, dst
< 8). In particular (3, 0xFEF1, 0x1C, global) encodes to 0x0CFEF11C. -/
theorem C3_identifier_roundtrip_amended (priority pgn src dst : Nat)
    (data : List Nat) (sz : Nat) (hsz : sz ≤ 8)
    (hp : priority ≤ 7) (hs : src ≤ 255) (hd : dst ≤ 255) (hg : pgn ≤ 0x3FFFF)
    (hnn : dst ≠ NULL_CAN_ADDRESS)
    (hcase : (dst = BROADCAST_CAN_ADDRESS ∧ 0xF000 ≤ pgn &&& 0xF000) ∨
             (pgn &&& 0xF000 < 0xF000 ∧ pgn % 256 = 0 ∧
                ¬(priority = 0 ∧ pgn = 0 ∧ dst < 8))) :
    CANIdentifier.get_priority
        ((construct_frame src dst pgn priority (some data) sz).identifier) = priority ∧
    CANIdentifier.get_parameter_group_number
        ((construct_frame src dst pgn priority (some data) sz).identifier) = pgn ∧
    CANIdentifier.get_source_address
        ((construct_frame src dst pgn priority (some data) sz).identifier) = src ∧
    CANIdentifier.get_destination_address
        ((construct_frame src dst pgn priority (some data) sz).identifier) = dst := by
  have hguard : NULL_CAN_ADDRESS ≠ dst ∧ priority ≤ 7 ∧ sz ≤ CAN_DATA_LENGTH ∧
      (some data : Option (List Nat)) ≠ none := by
    refine ⟨fun h => hnn h.symm, hp, hsz, by simp⟩
  rcases hcase with ⟨hdst, hfmt⟩ | ⟨hfmt, hlow, hdeg⟩
  · -- PDU2 broadcast form
    have hnib : pgn / 4096 % 16 = 15 := by
      have h := hfmt; rw [and_F000] at h; omega
    have hid : construct_frame_identifier src dst pgn priority =
        priority * 2 ^ 26 + pgn * 2 ^ 8 + src := by
      rw [construct_frame_identifier, if_pos hdst.symm, if_pos hfmt,
        construct_identifier_pdu2 src pgn priority hp hs hg]
    have hidne : DEFAULT_IDENTIFIER ≠ construct_frame_identifier src dst pgn priority := by
      rw [hid, DEFAULT_IDENTIFIER]; omega
    have he : (construct_frame src dst pgn priority (some data) sz).identifier =
        priority * 2 ^ 26 + pgn * 2 ^ 8 + src := by
      rw [construct_frame, if_pos hguard, if_pos hidne]
      simp only [hid, and_1FFFFFFF]
      omega
    rw [he]
    set e := priority * 2 ^ 26 + pgn * 2 ^ 8 + src with hedef
    have hext : CANIdentifier.is_extended_type e = true := by
      rw [CANIdentifier.is_extended_type]
      simp only [decide_eq_true_eq, Decidable.not_not]
      omega
    have hpdu : ¬ (PDU2_FORMAT_MASK &&& e < PDU2_FORMAT_MASK) := by
      rw [Nat.and_comm, PDU2_FORMAT_MASK, and_F00000]; omega
    refine ⟨?_, ?_, ?_, ?_⟩
    · rw [CANIdentifier.get_priority, if_pos hext, shiftRight_div, and_7]; omega
    · rw [CANIdentifier.get_parameter_group_number, if_pos hext, if_neg hpdu,
        shiftRight_div, BROADCAST_PGN_MASK, and_3FFFF]
      omega
    · rw [CANIdentifier.get_source_address, if_pos hext, and_FF]; omega
    · rw [CANIdentifier.get_destination_address, if_neg (fun h => hpdu h.2),
        CANIdentifier.GLOBAL_ADDRESS, hdst, BROADCAST_CAN_ADDRESS]
  · -- PDU1 destination-specific form (destination global or specific)
    have hnib : pgn / 4096 % 16 < 15 := by
      have h := hfmt; rw [and_F000] at h; omega
    have hqm : pgn / 256 % 1024 = pgn / 256 := by omega
    have hid : construct_frame_identifier src dst pgn priority =
        priority * 2 ^ 26 + pgn / 256 * 2 ^ 16 + dst * 2 ^ 8 + src := by
      rw [construct_frame_identifier]
      by_cases hdst : BROADCAST_CAN_ADDRESS = dst
      · rw [if_pos hdst, if_neg (by omega),
          construct_identifier_pdu1 src dst pgn priority hp hs hd hg, hqm]
      · rw [if_neg hdst, if_pos hfmt,
          construct_identifier_pdu1 src dst pgn priority hp hs hd hg, hqm]
    have hidne : DEFAULT_IDENTIFIER ≠ construct_frame_identifier src dst pgn priority := by
      rw [hid, DEFAULT_IDENTIFIER]; omega
    have he : (construct_frame src dst pgn priority (some data) sz).identifier =
        priority * 2 ^ 26 + pgn / 256 * 2 ^ 16 + dst * 2 ^ 8 + src := by
      rw [construct_frame, if_pos hguard, if_pos hidne]
      simp only [hid, and_1FFFFFFF]
      omega
    rw [he]
    set e := priority * 2 ^ 26 + pgn / 256 * 2 ^ 16 + dst * 2 ^ 8 + src with hedef
    have hebig : 0x7FF < e := by rw [hedef]; omega
    have hext : CANIdentifier.is_extended_type e = true := by
      rw [CANIdentifier.is_extended_type]
      simp only [decide_eq_true_eq, Decidable.not_not]
      omega
    have hpdu : PDU2_FORMAT_MASK &&& e < PDU2_FORMAT_MASK := by
      rw [Nat.and_comm, PDU2_FORMAT_MASK, and_F00000, hedef]; omega
    refine ⟨?_, ?_, ?_, ?_⟩
    · rw [CANIdentifier.get_priority, if_pos hext, shiftRight_div, and_7, hedef]
      omega
    · rw [CANIdentifier.get_parameter_group_number, if_pos hext, if_pos hpdu,
        shiftRight_div, DESTINATION_SPECIFIC_PGN_MASK, and_3FF00, hedef]
      omega
    · rw [CANIdentifier.get_source_address, if_pos hext, and_FF, hedef]; omega
    · rw [CANIdentifier.get_destination_address, if_pos ⟨hext, hpdu⟩,
        shiftRight_div, and_FF, hedef]
      omega

/-- Witness for C3 (amended) at the spec's own S6 tuple
(priority 3, pgn 0xFEF1, src 0x1C, dst global): the constructed 29-bit
identifier is exactly 0x0CFEF11C, and decoding it returns the tuple. -/
theorem C3_identifier_roundtrip_amended_witness :
    (construct_frame 0x1C 0xFF 0xFEF1 3 (some [0, 0, 0, 0, 0, 0, 0, 0]) 8).identifier =
        0x0CFEF11C ∧
    CANIdentifier.get_priority
        ((construct_frame 0x1C 0xFF 0xFEF1 3 (some [0, 0, 0, 0, 0, 0, 0, 0]) 8).identifier) = 3 ∧
    CANIdentifier.get_parameter_group_number
        ((construct_frame 0x1C 0xFF 0xFEF1 3 (some [0, 0, 0, 0, 0, 0, 0, 0]) 8).identifier) = 0xFEF1 ∧
    CANIdentifier.get_source_address
        ((construct_frame 0x1C 0xFF 0xFEF1 3 (some [0, 0, 0, 0, 0, 0, 0, 0]) 8).identifier) = 0x1C ∧
    CANIdentifier.get_destination_address
        ((construct_frame 0x1C 0xFF 0xFEF1 3 (some [0, 0, 0, 0, 0, 0, 0, 0]) 8).identifier) = 0xFF :=
  ⟨by decide,
   C3_identifier_roundtrip_amended 3 0xFEF1 0x1C 0xFF [0, 0, 0, 0, 0, 0, 0, 0] 8
     (by decide) (by decide) (by decide) (by decide) (by decide) (by decide)
     (Or.inl (by decide))⟩

/-! ## Callback registries
(`can_network_manager.cpp` lines 50–53 and 334–347,
`storage_manager.cpp` lines 21–34) -/

/-- Modelled from the spec: `ParameterGroupNumberCallbackData` (its header is
not under `src/`); duplicate detection compares the whole
(pgn, callback, parent) entry, callback and parent pointers being numeric
handles and `none` a null callback pointer. -/
structure ParameterGroupNumberCallbackData where
  parameterGroupNumber : Nat
  callback : Option Nat
  parent : Nat
deriving DecidableEq, Repr

/-- `StorageManager::ReadStorageCallbackInfo`; its `operator==` (in
`storage_manager.cpp`) compares callback and parent only. -/
structure ReadStorageCallbackInfo where
  callback : Nat
  parent : Nat
deriving DecidableEq, Repr

/-- `CANNetworkManager::add_protocol_parameter_group_number_callback`:
push and return true only for a non-null callback not already present. -/
def add_protocol_parameter_group_number_callback
    (protocolPGNCallbacks : List ParameterGroupNumberCallbackData)
    (parameterGroupNumber : Nat) (callback : Option Nat) (parentPointer : Nat) :
    List ParameterGroupNumberCallbackData × Bool :=
  let callbackInfo : ParameterGroupNumberCallbackData :=
    ⟨parameterGroupNumber, callback, parentPointer⟩
  if callback ≠ none ∧ callbackInfo ∉ protocolPGNCallbacks then
    (protocolPGNCallbacks ++ [callbackInfo], true)
  else
    (protocolPGNCallbacks, false)

/-- `CANNetworkManager::add_global_parameter_group_number_callback`: a plain
`emplace_back` with no duplicate check and no return value. -/
def add_global_parameter_group_number_callback
    (globalParameterGroupNumberCallbacks : List ParameterGroupNumberCallbackData)
    (parameterGroupNumber : Nat) (callback : Option Nat) (parent : Nat) :
    List ParameterGroupNumberCallbackData :=
  globalParameterGroupNumberCallbacks ++ [⟨parameterGroupNumber, callback, parent⟩]

/-- `StorageManager::add_storage_read_callback`, exactly as written: the
entry is pushed (and true returned) when `std::find` DID locate it, i.e.
only when it is already present. -/
def add_storage_read_callback (storageReadCallbacks : List ReadStorageCallbackInfo)
    (callback : Nat) (parentPointer : Nat) : List ReadStorageCallbackInfo × Bool :=
  let callbackInfo : ReadStorageCallbackInfo := ⟨callback, parentPointer⟩
  if callbackInfo ∈ storageReadCallbacks then
    (storageReadCallbacks ++ [callbackInfo], true)
  else
    (storageReadCallbacks, false)

/-- C6, the claim as written, refuted: on the storage-read registry,
registering the already-present pair (callback 1, parent 2) returns true and
appends a duplicate, where the claim requires false and no change. -/
theorem C6_duplicate_registration_counterexample :
    ¬ (add_storage_read_callback [⟨1, 2⟩] 1 2 = ([⟨1, 2⟩], false)) := by
  decide

/-- C6 (amended): only the protocol PGN registry rejects duplicates —
registering a pair already present (or a null callback) returns false and
leaves it unchanged. The global PGN registry appends unconditionally and
returns nothing. The storage-read registry's membership test is inverted:
an already-present pair is appended again with return true, and a new pair
is rejected with false. -/
theorem C6_duplicate_registration_amended
    (protoReg globalReg : List ParameterGroupNumberCallbackData)
    (storReg : List ReadStorageCallbackInfo)
    (pgn : Nat) (cb : Nat) (parent scb sparent scb2 sparent2 : Nat)
    (hdupP : (⟨pgn, some cb, parent⟩ : ParameterGroupNumberCallbackData) ∈ protoReg)
    (hdupS : (⟨scb, sparent⟩ : ReadStorageCallbackInfo) ∈ storReg)
    (hnewS : (⟨scb2, sparent2⟩ : ReadStorageCallbackInfo) ∉ storReg) :
    add_protocol_parameter_group_number_callback protoReg pgn (some cb) parent =
        (protoReg, false) ∧
    add_global_parameter_group_number_callback globalReg pgn (some cb) parent =
        globalReg ++ [⟨pgn, some cb, parent⟩] ∧
    add_storage_read_callback storReg scb sparent = (storReg ++ [⟨scb, sparent⟩], true) ∧
    add_storage_read_callback storReg scb2 sparent2 = (storReg, false) := by
  refine ⟨?_, rfl, ?_, ?_⟩
  · rw [add_protocol_parameter_group_number_callback]
    rw [if_neg]
    intro h
    exact h.2 hdupP
  · rw [add_storage_read_callback, if_pos hdupS]
  · rw [add_storage_read_callback, if_neg hnewS]

/-- Witness for C6 (amended): concrete one-element registries, exercising
the duplicate pair (4, 5) and the not-yet-present pair (6, 7) on the
storage-read registry. -/
theorem C6_duplicate_registration_amended_witness :
    add_protocol_parameter_group_number_callback [⟨9, some 4, 5⟩] 9 (some 4) 5 =
        ([⟨9, some 4, 5⟩], false) ∧
    add_global_parameter_group_number_callback [⟨9, some 4, 5⟩] 9 (some 4) 5 =
        [⟨9, some 4, 5⟩] ++ [⟨9, some 4, 5⟩] ∧
    add_storage_read_callback [⟨4, 5⟩] 4 5 = ([⟨4, 5⟩] ++ [⟨4, 5⟩], true) ∧
    add_storage_read_callback [⟨4, 5⟩] 6 7 = ([⟨4, 5⟩], false) :=
  C6_duplicate_registration_amended [⟨9, some 4, 5⟩] [⟨9, some 4, 5⟩] [⟨4, 5⟩]
    9 4 5 4 5 6 7 (by decide) (by decide) (by decide)

/-! ## File storage plugin
(`src/hardware_integration/src/file_storage_plugin.cpp`)

The file system is modelled as a map from path to raw byte contents. -/

/-- An abstract file system: `none` means the file does not exist. Opening
for write always succeeds here; the claims under test concern the path and
the bytes, not OS-level failures. -/
def FileSystem := String → Option (List Nat)

namespace FileStoragePlugin

/-- Constructor state: the configured directory prefix and file suffix. -/
structure Plugin where
  dir : String
  fileSuffix : String
deriving DecidableEq, Repr

/-- The path `write_data`/`read_data` actually open:
`dir + std::to_string(id)` — the stored suffix is never used. -/
def used_path (p : Plugin) (id : Nat) : String := p.dir ++ toString id

/-- Modelled from the spec: the path the §6 contract prescribes,
`<dir>/<id><suffix>`. -/
def spec_path (p : Plugin) (id : Nat) : String := p.dir ++ toString id ++ p.fileSuffix

/-- `FileStoragePlugin::write_data`: opens `dir + to_string(id)` and writes
the raw bytes. -/
def write_data (p : Plugin) (id : Nat) (data : List Nat) (fs : FileSystem) :
    FileSystem × Bool :=
  (fun path => if path = used_path p id then some data else fs path, true)

/-- The whitespace set that `std::istream_iterator` skips in the default
locale: space, tab, newline, vertical tab, form feed, carriage return. -/
def isStreamWhitespace (b : Nat) : Bool :=
  b = 0x20 ∨ b = 0x09 ∨ b = 0x0A ∨ b = 0x0B ∨ b = 0x0C ∨ b = 0x0D

/-- `FileStoragePlugin::read_data`: opens `dir + to_string(id)` and reads it
through `std::istream_iterator<std::uint8_t>`, which performs formatted
input and therefore skips whitespace bytes. -/
def read_data (p : Plugin) (id : Nat) (fs : FileSystem) : Option (List Nat) :=
  match fs (used_path p id) with
  | some bytes => some (bytes.filter (fun b => ¬ isStreamWhitespace b))
  | none => none

end FileStoragePlugin

/-- C8: the code diverges from the claim at a concrete input. With
dir `d/`, suffix `.dat`, id 1 and payload `[0x20, 0x41]`: the file opened is
`d/1`, not the claimed `d/1.dat`, and reading back returns `[0x41]` — the
space byte is dropped by the formatted-input iterator — not the written
bytes. -/
theorem C8_file_storage_divergence :
    FileStoragePlugin.used_path ⟨"d/", ".dat"⟩ 1 = "d/1" ∧
    FileStoragePlugin.used_path ⟨"d/", ".dat"⟩ 1 ≠
      FileStoragePlugin.spec_path ⟨"d/", ".dat"⟩ 1 ∧
    FileStoragePlugin.read_data ⟨"d/", ".dat"⟩ 1
        (FileStoragePlugin.write_data ⟨"d/", ".dat"⟩ 1 [0x20, 0x41] (fun _ => none)).1 =
      some [0x41] := by
  refine ⟨rfl, by decide, rfl⟩

/-! ## Raw transmission
(`can_network_manager.cpp` lines 815–825: `send_can_message_raw`) -/

/-- Events observable outside `send_can_message` / `send_can_message_raw`. -/
inductive TxEvent where
  | completionCallback (success : Bool)
  | frameToHardware (f : CANMessageFrame)
deriving DecidableEq, Repr

/-- `CANNetworkManager::send_can_message_raw`: build the frame with
`construct_frame`; only a frame whose identifier is not the
`DEFAULT_IDENTIFIER` sentinel is handed to
`send_can_message_frame_to_hardware` (whose verdict is the external input
`hardwareAccepts`). -/
def send_can_message_raw (sourceAddress destAddress parameterGroupNumber priority : Nat)
    (data : Option (List Nat)) (size : Nat) (hardwareAccepts : Bool) : Bool × List TxEvent :=
  let tempFrame := construct_frame sourceAddress destAddress parameterGroupNumber priority data size
  if DEFAULT_IDENTIFIER ≠ tempFrame.identifier then
    (hardwareAccepts, [TxEvent.frameToHardware tempFrame])
  else
    (false, [])

/-- C9 is stated over the network state further below; C10 is stated here.

C10: `send_can_message_raw` returns false and hands no frame to hardware
whenever the destination is the null address 0xFE, the data pointer is
null, the size exceeds 8, or the priority exceeds 7 — in each such case
`construct_frame` returns the `DEFAULT_IDENTIFIER` sentinel frame. -/
theorem C10_raw_send_rejections (sourceAddress destAddress parameterGroupNumber priority : Nat)
    (data : Option (List Nat)) (size : Nat) (hardwareAccepts : Bool)
    (hrej : destAddress = NULL_CAN_ADDRESS ∨ data = none ∨ 8 < size ∨ 7 < priority) :
    (construct_frame sourceAddress destAddress parameterGroupNumber priority data size).identifier
        = DEFAULT_IDENTIFIER ∧
    send_can_message_raw sourceAddress destAddress parameterGroupNumber priority data size
        hardwareAccepts = (false, []) := by
  have hguard : ¬ (NULL_CAN_ADDRESS ≠ destAddress ∧ priority ≤ 7 ∧ size ≤ CAN_DATA_LENGTH ∧
      data ≠ none) := by
    rw [CAN_DATA_LENGTH]
    rcases hrej with h | h | h | h
    · exact fun hc => hc.1 h.symm
    · exact fun hc => hc.2.2.2 h
    · exact fun hc => by omega
    · exact fun hc => by omega
  have hframe : construct_frame sourceAddress destAddress parameterGroupNumber priority data size
      = rejectedFrame := by
    rw [construct_frame, if_neg hguard]
  refine ⟨by rw [hframe]; rfl, ?_⟩
  rw [send_can_message_raw]
  simp only [hframe]
  rw [if_neg (by rw [rejectedFrame]; simp)]

/-- Witness for C10 at a concrete rejected input (null destination). -/
theorem C10_raw_send_rejections_witness :
    (construct_frame 5 0xFE 0xEF00 3 (some [1]) 1).identifier = DEFAULT_IDENTIFIER ∧
    send_can_message_raw 5 0xFE 0xEF00 3 (some [1]) 1 true = (false, []) :=
  C10_raw_send_rejections 5 0xFE 0xEF00 3 (some [1]) 1 true (Or.inl rfl)

/-! ## send_can_message
(`can_network_manager.cpp` lines 93–162) -/

/-- The slice of a control function that `send_can_message` consults: its
current address. `ControlFunction::get_address_valid` is documented in
`can_control_function.hpp` as "true if the address is < 0xFE". -/
structure CFHandle where
  address : Nat
deriving DecidableEq, Repr

/-- `ControlFunction::get_address_valid`. -/
def CFHandle.get_address_valid (c : CFHandle) : Bool := c.address < 0xFE

/-- `CANNetworkManager::send_can_message`. External collaborators appear as
inputs: `protocolAccepts` lists each registered transport protocol's
`protocol_transmit_message` verdict (tried in order, first acceptance
wins), `networkPresent` is whether the source's weak network pointer locks,
and `hardwareAccepts` the hardware verdict on the fallback single frame.
The returned event list records completion-callback firings and the frame
handed to hardware, in order. -/
def send_can_message (parameterGroupNumber : Nat) (dataBuffer : Option (List Nat))
    (dataLength : Nat) (sourceControlFunction : Option CFHandle)
    (destinationControlFunction : Option CFHandle) (priority : Nat)
    (hasTransmitCompleteCallback : Bool) (hasFrameChunkCallback : Bool)
    (protocolAccepts : List Bool) (networkPresent : Bool) (hardwareAccepts : Bool) :
    Bool × List TxEvent :=
  if (dataBuffer ≠ none ∨ hasFrameChunkCallback) ∧ 0 < dataLength ∧
      dataLength ≤ ABSOLUTE_MAX_MESSAGE_LENGTH ∧ sourceControlFunction ≠ none ∧
      (parameterGroupNumber = AddressClaim_PGN ∨
        (sourceControlFunction.map CFHandle.get_address_valid).getD false) then
    if protocolAccepts.any id then
      (true, [])
    else if dataBuffer ≠ none ∧ networkPresent then
      let sourceAddress := (sourceControlFunction.map CFHandle.address).getD 0
      let rawResult : Bool × List TxEvent :=
        match destinationControlFunction with
        | none =>
          send_can_message_raw sourceAddress 0xFF parameterGroupNumber priority
            dataBuffer dataLength hardwareAccepts
        | some dst =>
          if dst.get_address_valid then
            send_can_message_raw sourceAddress dst.address parameterGroupNumber priority
              dataBuffer dataLength hardwareAccepts
          else (false, [])
      if rawResult.1 ∧ hasTransmitCompleteCallback then
        (rawResult.1, rawResult.2 ++ [TxEvent.completionCallback true])
      else rawResult
    else (false, [])
  else (false, [])

/-- C4, the claim as written, refuted: a send with a null source control
function is rejected with return false, but no completion callback fires —
the claim requires a success=false callback on every rejected send. -/
theorem C4_send_rejection_counterexample :
    (send_can_message 0xEF00 (some [1, 2, 3]) 3 none none 6 true false [] true true).1 = false ∧
    ¬ (TxEvent.completionCallback false ∈
        (send_can_message 0xEF00 (some [1, 2, 3]) 3 none none 6 true false [] true true).2) := by
  decide

/-- C4 (amended): `send_can_message` returns false immediately when the
source control function is null, when the source has no valid address and
the PGN is not the address-claim PGN, or when the data length is zero or
exceeds 1785 bytes; no completion callback fires on such a rejection (the
callback only fires after a successful direct transmission). -/
theorem C4_send_rejections_amended (parameterGroupNumber : Nat)
    (dataBuffer : Option (List Nat)) (dataLength : Nat)
    (sourceControlFunction destinationControlFunction : Option CFHandle) (priority : Nat)
    (hasTransmitCompleteCallback hasFrameChunkCallback : Bool)
    (protocolAccepts : List Bool) (networkPresent hardwareAccepts : Bool)
    (hrej : sourceControlFunction = none ∨
            (∃ s, sourceControlFunction = some s ∧ ¬ (s.address < 0xFE) ∧
              parameterGroupNumber ≠ AddressClaim_PGN) ∨
            dataLength = 0 ∨ ABSOLUTE_MAX_MESSAGE_LENGTH < dataLength) :
    send_can_message parameterGroupNumber dataBuffer dataLength sourceControlFunction
        destinationControlFunction priority hasTransmitCompleteCallback hasFrameChunkCallback
        protocolAccepts networkPresent hardwareAccepts = (false, []) := by
  rw [send_can_message, if_neg]
  intro hc
  rcases hrej with h | ⟨s, hs, hinv, hpgn⟩ | h | h
  · exact hc.2.2.2.1 h
  · rcases hc.2.2.2.2 with hcl | hval
    · exact hpgn hcl
    · rw [hs] at hval
      simp only [Option.map_some', Option.getD_some, CFHandle.get_address_valid,
        decide_eq_true_eq] at hval
      exact hinv hval
  · omega
  · have hmax := hc.2.2.1
    rw [ABSOLUTE_MAX_MESSAGE_LENGTH] at hmax h
    omega

/-- Witness for C4 (amended) at a concrete rejected input: valid source
address, oversize 2000-byte length. -/
theorem C4_send_rejections_amended_witness :
    send_can_message 0xEF00 (some [1]) 2000 (some ⟨0x1C⟩) none 6 true false [] true true =
      (false, []) :=
  C4_send_rejections_amended 0xEF00 (some [1]) 2000 (some ⟨0x1C⟩) none 6 true false [] true true
    (Or.inr (Or.inr (Or.inr (by decide))))

/-! ## Busload estimate
(`can_network_manager.cpp` lines 82–91: `get_estimated_busload`) -/

/-- `CANNetworkManager::get_estimated_busload`, with the C++ `float`
arithmetic carried out exactly over `ℚ`: window seconds are
`size * 100 / 1000`, and the percentage is
`totalBits / (seconds * 250000) * 100`, or 0 for an empty history. -/
def get_estimated_busload (busloadMessageBitsHistory : List Nat) : ℚ :=
  let totalTimeInAccumulatorWindow : ℚ :=
    (busloadMessageBitsHistory.length * BUSLOAD_UPDATE_FREQUENCY_MS : Nat) / 1000
  let totalBitCount : Nat := busloadMessageBitsHistory.sum
  if totalTimeInAccumulatorWindow ≠ 0 then
    (totalBitCount : ℚ) / (totalTimeInAccumulatorWindow * 250000) * 100
  else 0

/-- C7 (amended): for a fixed window shape the busload percentage is
monotonically non-decreasing in the total number of accumulated bits. (The
claim's bound of 100 is refuted separately: nothing clamps the total, see
the counterexample.) -/
theorem C7_busload_monotone_amended (h1 h2 : List Nat)
    (hlen : h1.length = h2.length) (hsum : h1.sum ≤ h2.sum) :
    get_estimated_busload h1 ≤ get_estimated_busload h2 := by
  rw [get_estimated_busload, get_estimated_busload]
  simp only [hlen]
  split
  · next hne =>
    have hpos : (0 : ℚ) < (h2.length * BUSLOAD_UPDATE_FREQUENCY_MS : Nat) / 1000 * 250000 := by
      rcases Nat.eq_zero_or_pos h2.length with hz | hp
      · exfalso; apply hne; rw [hz]; norm_num
      · have : (0 : ℚ) < ((h2.length * BUSLOAD_UPDATE_FREQUENCY_MS : Nat) : ℚ) := by
          rw [BUSLOAD_UPDATE_FREQUENCY_MS]
          push_cast
          positivity
        positivity
    have hc : (h1.sum : ℚ) ≤ (h2.sum : ℚ) := by exact_mod_cast hsum
    gcongr
  · exact le_refl _

/-- Witness for C7 (amended): two singleton windows, 1000 vs 2000 bits. -/
theorem C7_busload_monotone_amended_witness :
    get_estimated_busload [1000] ≤ get_estimated_busload [2000] :=
  C7_busload_monotone_amended [1000] [2000] rfl (by decide)

/-! ## Network-manager state
(`can_network_manager.cpp`: address table, control-function lifecycle,
RX pipeline)

`shared_ptr<ControlFunction>` identity is modelled by indices into an
append-only store of records: updating a record through one index is seen
through every other occurrence of that index, exactly like the shared
mutable objects in the C++. -/

/-- `ControlFunction::Type`. -/
inductive CFType where
  | Internal
  | External
  | Partnered
deriving DecidableEq, Repr

/-- The NAME parameter fields selectable by a filter
(spec §4.3 bit layout). -/
inductive NAMEParameter where
  | IdentityNumber
  | ManufacturerCode
  | EcuInstance
  | FunctionInstance
  | FunctionCode
  | Reserved
  | DeviceClass
  | DeviceClassInstance
  | IndustryGroup
  | ArbitraryAddressCapable
deriving DecidableEq, Repr

/-- Modelled from the spec: extraction of one packed field from the 64-bit
NAME value (`NAME`'s implementation is not under `src/`; spec §4.3 gives
the packing: identity 21 b, manufacturer 11 b, ECU instance 3 b, function
instance 5 b, function 8 b, reserved 1 b, device class 7 b, device class
instance 4 b, industry group 3 b, arbitrary-address bit). -/
def nameField (name : Nat) : NAMEParameter → Nat
  | .IdentityNumber => name % 2 ^ 21
  | .ManufacturerCode => name / 2 ^ 21 % 2 ^ 11
  | .EcuInstance => name / 2 ^ 32 % 2 ^ 3
  | .FunctionInstance => name / 2 ^ 35 % 2 ^ 5
  | .FunctionCode => name / 2 ^ 40 % 2 ^ 8
  | .Reserved => name / 2 ^ 48 % 2
  | .DeviceClass => name / 2 ^ 49 % 2 ^ 7
  | .DeviceClassInstance => name / 2 ^ 56 % 2 ^ 4
  | .IndustryGroup => name / 2 ^ 60 % 2 ^ 3
  | .ArbitraryAddressCapable => name / 2 ^ 63 % 2

/-- A NAME filter entry: one parameter compared against one value. -/
structure NAMEFilter where
  parameter : NAMEParameter
  value : Nat
deriving DecidableEq, Repr

/-- Modelled from the spec:
`PartneredControlFunction::check_matches_name` (implementation not under
`src/`); spec §4.5: "Filter match is conjunction over filter entries, each
comparing one NAME parameter field." -/
def check_matches_name (filters : List NAMEFilter) (name : Nat) : Bool :=
  filters.all (fun f => nameField name f.parameter == f.value)

/-- One control-function record (`ControlFunction`): NAME, current address
and type tag, plus the partner-only fields `NAMEFilterList` and
`initialized`. -/
structure CF where
  name : Nat
  address : Nat
  typ : CFType
  filters : List NAMEFilter
  initialized : Bool
deriving DecidableEq, Repr

instance : Inhabited CF := ⟨⟨0, 0xFE, CFType.External, [], true⟩⟩

/-- Index of a control-function object in the store. -/
abbrev CFId := Nat

/-- A queued `CANMessage`, as built by
`process_receive_can_message_frame`: raw identifier, the control functions
the source and destination addresses resolved to at queueing time, and the
copied payload. -/
structure CANMsg where
  identifier : Nat
  source : Option CFId
  destination : Option CFId
  data : List Nat
deriving DecidableEq, Repr

/-- The slice of `InternalControlFunction` that the network manager's
commanded-address path touches: NAME, current address, and the address last
handed to `process_commanded_address` (none if never commanded). -/
structure ICF where
  name : Nat
  address : Nat
  commandedAddress : Option Nat
deriving DecidableEq, Repr

/-- Number of address-table slots (spec §3 data model: 256 slots; the
`update_address_table` search loops stop at `NULL_CAN_ADDRESS` = 254). -/
def TABLE_SIZE : Nat := 256

/-- Modelled from the spec: the frame bit count
(`CANMessageFrame::get_number_bits_in_message`, not under `src/`);
spec §4.5 gives the per-frame on-wire contribution 55 + 10·dataLength
including the stuffing upper bound. -/
def number_bits_in_message (f : CANMessageFrame) : Nat := 55 + 10 * f.dataLength

/-- The mutable per-network state of `CANNetworkManager` (plus the static
partner and internal-CF registries, which are per-process in the C++ but
confined to this one network in every trace considered here). -/
structure NMState where
  store : List CF
  controlFunctionTable : List (Option CFId)
  inactiveControlFunctions : List CFId
  partneredControlFunctionList : List CFId
  anyPartnerNeedsInitializing : Bool
  internalControlFunctions : List ICF
  receiveMessageList : List CANMsg
  currentBusloadBitAccumulator : Nat
  busloadMessageBitsHistory : List Nat
deriving DecidableEq, Repr

/-- Freshly constructed network manager: empty table, no control functions. -/
def initState : NMState :=
  { store := []
    controlFunctionTable := List.replicate TABLE_SIZE none
    inactiveControlFunctions := []
    partneredControlFunctionList := []
    anyPartnerNeedsInitializing := false
    internalControlFunctions := []
    receiveMessageList := []
    currentBusloadBitAccumulator := 0
    busloadMessageBitsHistory := [] }

/-- Dereference a control-function id (a `shared_ptr` target). -/
def getCF (s : NMState) (cid : CFId) : CF := s.store.getD cid default

/-- Mutate the record behind a control-function id. -/
def setCF (s : NMState) (cid : CFId) (cf : CF) : NMState :=
  { s with store := s.store.set cid cf }

/-- Read one address-table slot. -/
def tableAt (s : NMState) (i : Nat) : Option CFId :=
  s.controlFunctionTable.getD i none

/-- Write one address-table slot. -/
def setTable (s : NMState) (i : Nat) (v : Option CFId) : NMState :=
  { s with controlFunctionTable := s.controlFunctionTable.set i v }

/-- `CANNetworkManager::get_control_function` (lines 669–678): only
addresses strictly below `NULL_CAN_ADDRESS` are looked up in the table. -/
def get_control_function (s : NMState) (address : Nat) : Option CFId :=
  if address < NULL_CAN_ADDRESS then tableAt s address else none

/-- The little-endian 64-bit read shared by the address-claim NAME decode
(`update_control_functions` lines 465–472) and
`CANMessage::get_uint64_at(0)`. -/
def decode_claimed_name (data : List Nat) : Nat :=
  ((((((data.getD 0 0 |||
    (data.getD 1 0 <<< 8)) |||
    (data.getD 2 0 <<< 16)) |||
    (data.getD 3 0 <<< 24)) |||
    (data.getD 4 0 <<< 32) |||
    (data.getD 5 0 <<< 40)) |||
    (data.getD 6 0 <<< 48)) |||
    (data.getD 7 0 <<< 56))

/-- The eviction block of `update_address_table(std::uint8_t)` (lines
382–394): a slot occupant whose address was stolen (its stored address is
already `NULL_ADDRESS`) is pushed on the inactive list and the slot is
cleared. -/
def uat_evict (s : NMState) (claimedAddress : Nat) : NMState :=
  match tableAt s claimedAddress with
  | some cid =>
    if (getCF s cid).address = CANIdentifier.NULL_ADDRESS then
      setTable
        { setCF s cid { getCF s cid with address := NULL_CAN_ADDRESS } with
          inactiveControlFunctions := s.inactiveControlFunctions ++ [cid] }
        claimedAddress none
    else s
  | none => s

/-- The active-table scan of the fill block (lines 399–415): the first slot
0..253 other than the claimed one whose occupant now holds the claimed
address is moved to the claimed slot. -/
def uat_fill_active (s : NMState) (claimedAddress : Nat) : NMState :=
  match (List.range NULL_CAN_ADDRESS).find? (fun i =>
      (i != claimedAddress) &&
      (match tableAt s i with
       | some cid => (getCF s cid).address == claimedAddress
       | none => false)) with
  | some i => setTable (setTable s claimedAddress (tableAt s i)) i none
  | none => s

/-- The inactive-list scan of the fill block (lines 417–429): the first
inactive CF holding the claimed address is installed in the claimed slot
(it is not removed from the inactive list, and the loop runs even when the
active scan already filled the slot). -/
def uat_fill_inactive (s : NMState) (claimedAddress : Nat) : NMState :=
  match s.inactiveControlFunctions.find? (fun cid =>
      (getCF s cid).address == claimedAddress) with
  | some cid => setTable s claimedAddress (some cid)
  | none => s

/-- `CANNetworkManager::update_address_table(std::uint8_t)` (lines
380–431): evict, then — only if the slot is empty — run the active scan
followed by the inactive scan. -/
def update_address_table_claim (s : NMState) (claimedAddress : Nat) : NMState :=
  if tableAt (uat_evict s claimedAddress) claimedAddress = none then
    uat_fill_inactive (uat_fill_active (uat_evict s claimedAddress) claimedAddress)
      claimedAddress
  else uat_evict s claimedAddress

/-- `CANNetworkManager::update_address_table(const CANMessage &)` (lines
370–378): only address-claim messages touch the table. -/
def update_address_table_msg (s : NMState) (m : CANMsg) : NMState :=
  if CANIdentifier.get_parameter_group_number m.identifier = AddressClaim_PGN then
    update_address_table_claim s (CANIdentifier.get_source_address m.identifier)
  else s

/-- The `std::for_each` over the table in `update_control_functions` (lines
514–520): every table CF other than the found one whose address equals the
claiming source address has its address set to `NULL_ADDRESS`. -/
def null_others_active (s : NMState) (found : Option CFId) (srcAddr : Nat) : NMState :=
  (List.range TABLE_SIZE).foldl (fun acc i =>
    match tableAt acc i with
    | some cid =>
      if found ≠ some cid ∧ (getCF acc cid).address = srcAddr then
        setCF acc cid { getCF acc cid with address := CANIdentifier.NULL_ADDRESS }
      else acc
    | none => acc) s

/-- The `std::for_each` over the inactive list in
`update_control_functions` (lines 522–527). -/
def null_others_inactive (s : NMState) (found : Option CFId) (srcAddr : Nat) : NMState :=
  s.inactiveControlFunctions.foldl (fun acc cid =>
    if found ≠ some cid ∧ (getCF acc cid).address = srcAddr then
      setCF acc cid { getCF acc cid with address := CANIdentifier.NULL_ADDRESS }
    else acc) s

/-- `CANNetworkManager::update_control_functions` (lines 457–548), run for
every received frame. For an 8-byte address-claim frame: decode the NAME;
look for it among the active table entries, then the inactive list, then
the partners (a matching partner is bound in place: it takes the claimed
address and NAME and is written into the table slot of the source
address); null out every other CF holding the source address; create a new
external CF if nobody matched; finally the found CF takes the source
address. -/
def ucf_find_active (s : NMState) (claimedNAME : Nat) : Option CFId :=
  (List.range TABLE_SIZE).findSome? (fun i =>
    match tableAt s i with
    | some cid => if (getCF s cid).name == claimedNAME then some cid else none
    | none => none)

def ucf_find_inactive (s : NMState) (claimedNAME : Nat) : Option CFId :=
  s.inactiveControlFunctions.find? (fun cid => (getCF s cid).name == claimedNAME)

def ucf_find_partner (s : NMState) (claimedNAME : Nat) : Option CFId :=
  s.partneredControlFunctionList.find? (fun pid =>
    check_matches_name (getCF s pid).filters claimedNAME)

/-- The search block of `update_control_functions` (lines 474–512): active
table, then inactive list, then partner list; a matching partner is bound
in place (it takes the claimed address and NAME and is written into the
claimed slot immediately). Returns the updated state and the found CF. -/
def ucf_search (s : NMState) (claimedNAME srcAddr : Nat) : NMState × Option CFId :=
  match ucf_find_active s claimedNAME with
  | some cid => (s, some cid)
  | none =>
    match ucf_find_inactive s claimedNAME with
    | some cid => (s, some cid)
    | none =>
      match ucf_find_partner s claimedNAME with
      | some pid =>
        (setTable (setCF s pid { getCF s pid with address := srcAddr, name := claimedNAME })
          srcAddr (some pid), some pid)
      | none => (s, none)

/-- The creation block of `update_control_functions` (lines 529–541): if no
CF matched, create an external CF at the claimed address and install it in
the claimed slot. Returns the state and the (possibly new) found CF. -/
def ucf_create (s : NMState) (found : Option CFId) (claimedNAME srcAddr : Nat) :
    NMState × CFId :=
  match found with
  | none =>
    (setTable
      { s with store := s.store ++
          [{ name := claimedNAME, address := srcAddr, typ := CFType.External,
             filters := [], initialized := true }] }
      srcAddr (some s.store.length), s.store.length)
  | some cid => (s, cid)

/-- The final `foundControlFunction->address = ...` assignment of
`update_control_functions` (line 545). -/
def ucf_assign (y : NMState × CFId) (srcAddr : Nat) : NMState :=
  setCF y.1 y.2 { getCF y.1 y.2 with address := srcAddr }

/-- Everything `update_control_functions` does after the search: null out
every other CF holding the claiming source address (table pass, then
inactive pass), create a new external CF if nobody matched, and assign the
source address to the found CF. -/
def ucf_finish (x : NMState × Option CFId) (claimedNAME srcAddr : Nat) : NMState :=
  ucf_assign
    (ucf_create (null_others_inactive (null_others_active x.1 x.2 srcAddr) x.2 srcAddr)
      x.2 claimedNAME srcAddr)
    srcAddr

/-- `CANNetworkManager::update_control_functions` (lines 457–548), run for
every received frame. For an 8-byte address-claim frame: decode the NAME;
search active table / inactive list / partner list in that order; null out
every other CF holding the claiming source address (table first, then
inactive list); create a new external CF if nobody matched; finally the
found CF takes the source address. -/
def update_control_functions (s : NMState) (f : CANMessageFrame) : NMState :=
  if CANIdentifier.get_parameter_group_number f.identifier = AddressClaim_PGN ∧
      f.dataLength = CAN_DATA_LENGTH then
    ucf_finish
      (ucf_search s (decode_claimed_name f.data) (CANIdentifier.get_source_address f.identifier))
      (decode_claimed_name f.data) (CANIdentifier.get_source_address f.identifier)
  else s

/-- `CANNetworkManager::update_busload` (lines 433–438). -/
def update_busload (s : NMState) (numberOfBitsProcessed : Nat) : NMState :=
  { s with currentBusloadBitAccumulator :=
      s.currentBusloadBitAccumulator + numberOfBitsProcessed }

/-- `CANNetworkManager::update_busload_history` (lines 440–455); whether
the 100 ms bucket timer expired is an external input. -/
def update_busload_history (s : NMState) (timeExpired : Bool) : NMState :=
  if timeExpired then
    let h := s.busloadMessageBitsHistory ++ [s.currentBusloadBitAccumulator]
    { s with
      busloadMessageBitsHistory :=
        h.drop (h.length - BUSLOAD_SAMPLE_WINDOW_MS / BUSLOAD_UPDATE_FREQUENCY_MS)
      currentBusloadBitAccumulator := 0 }
  else s

/-- `CANNetworkManager::process_receive_can_message_frame` (lines 271–285):
update the control functions from the frame, build the `CANMessage`
(resolving source and destination against the post-update table), count the
busload bits, and queue the message. -/
def process_receive_can_message_frame (s : NMState) (f : CANMessageFrame) : NMState :=
  let s1 := update_control_functions s f
  let msg : CANMsg :=
    { identifier := f.identifier
      source := get_control_function s1 (CANIdentifier.get_source_address f.identifier)
      destination :=
        get_control_function s1 (CANIdentifier.get_destination_address f.identifier)
      data := f.data.take f.dataLength }
  let s2 := update_busload s1 (number_bits_in_message f)
  { s2 with receiveMessageList := s2.receiveMessageList ++ [msg] }

/-- The binding attempt for one uninitialized partner inside
`CANNetworkManager::update_new_partners` (lines 556–605): scan the inactive
list, then the active table, for an External CF passing the filter set; the
partner inherits its NAME and address (an inactive donor is erased from the
inactive list, an active donor's slot — the slot numbered by the inherited
address — is overwritten with the partner). The partner is marked
initialized regardless of success. -/
def bind_new_partner (s : NMState) (pid : CFId) : NMState :=
  if ¬ (getCF s pid).initialized then
    let sBound :=
      match s.inactiveControlFunctions.find? (fun cid =>
          check_matches_name (getCF s pid).filters (getCF s cid).name &&
          ((getCF s cid).typ == CFType.External)) with
      | some cid =>
        let s1 := setCF s pid { getCF s pid with
          address := (getCF s cid).address, name := (getCF s cid).name,
          initialized := true }
        { s1 with inactiveControlFunctions := s1.inactiveControlFunctions.erase cid }
      | none =>
        match (List.range TABLE_SIZE).findSome? (fun i =>
            match tableAt s i with
            | some cid =>
              if check_matches_name (getCF s pid).filters (getCF s cid).name &&
                  ((getCF s cid).typ == CFType.External) then some cid else none
            | none => none) with
        | some cid =>
          let s1 := setCF s pid { getCF s pid with
            address := (getCF s cid).address, name := (getCF s cid).name,
            initialized := true }
          setTable s1 (getCF s1 pid).address (some pid)
        | none => s
    setCF sBound pid { getCF sBound pid with initialized := true }
  else s

/-- `CANNetworkManager::update_new_partners` (lines 550–609). -/
def update_new_partners (s : NMState) : NMState :=
  if s.anyPartnerNeedsInitializing then
    { s.partneredControlFunctionList.foldl bind_new_partner s with
        anyPartnerNeedsInitializing := false }
  else s

/-- `CANNetworkManager::process_can_message_for_commanded_address` (lines
773–796): a message with no resolved destination CF, the commanded-address
PGN and a 9-byte payload commands every Internal CF of this network whose
NAME equals the first eight payload bytes. `process_commanded_address`
itself is not under `src/`; modelled from the spec (§4.4: the CF adopts the
commanded address and re-claims) as recording the commanded address. -/
def process_can_message_for_commanded_address (s : NMState) (m : CANMsg) : NMState :=
  if m.destination = none ∧
      CANIdentifier.get_parameter_group_number m.identifier = CommandedAddress_PGN ∧
      m.data.length = 9 then
    { s with internalControlFunctions := s.internalControlFunctions.map (fun icf =>
        if icf.name = decode_claimed_name m.data then
          { icf with commandedAddress := some (m.data.getD 8 0) }
        else icf) }
  else s

/-- The per-message dispatch stages of the network manager. -/
inductive RxStage where
  | addressTable
  | protocolCallbacks
  | anyControlFunctionCallbacks
  | globalAndPartnerCallbacks
  | commandedAddress
deriving DecidableEq, Repr

/-- `CANNetworkManager::process_rx_messages` (lines 798–813): drain the
queue in FIFO order; for each message run `update_address_table`, then the
protocol PGN callbacks, then the any-control-function callbacks, then the
global-and-partner callbacks. The three callback dispatches (lines
694–771) read the message and fire user callbacks but do not modify the
manager state; the returned trace records every stage invocation in
order. -/
def process_rx_messages (s : NMState) : NMState × List (RxStage × CANMsg) :=
  go { s with receiveMessageList := [] } s.receiveMessageList
where
  go : NMState → List CANMsg → NMState × List (RxStage × CANMsg)
  | s, [] => (s, [])
  | s, m :: rest =>
    let s1 := update_address_table_msg s m
    let tail := go s1 rest
    (tail.1,
      (RxStage.addressTable, m) :: (RxStage.protocolCallbacks, m) ::
      (RxStage.anyControlFunctionCallbacks, m) ::
      (RxStage.globalAndPartnerCallbacks, m) :: tail.2)

/-- `CANNetworkManager::protocol_message_callback` (lines 827–831): a
message delivered by a transport protocol goes through the
global-and-partner dispatch and then — only here — the commanded-address
handler. -/
def protocol_message_callback (s : NMState) (m : CANMsg) :
    NMState × List (RxStage × CANMsg) :=
  (process_can_message_for_commanded_address s m,
   [(RxStage.globalAndPartnerCallbacks, m), (RxStage.commandedAddress, m)])

/-- `CANNetworkManager::update` (lines 174–226), for the parts of its body
whose code is under `src/`: bind new partners, then drain the RX queue,
then roll the busload history. (The `InternalControlFunction` address-claim
block is driven by code that is not under `src/` and is not exercised by
the traces considered here; the transport-protocol `update` calls do not
touch this state.) -/
def update (s : NMState) (busloadTimeExpired : Bool) : NMState :=
  update_busload_history (process_rx_messages (update_new_partners s)).1
    busloadTimeExpired

/-- The externally driven transitions of one network manager: a frame
received from hardware, a transmit confirmation from hardware, a periodic
`update()`, and the application registering a partnered control function
(the `PartneredControlFunction` constructor: NAME 0, null address,
uninitialized, appended to the static partner list). -/
inductive NMEvent where
  | rxFrame (f : CANMessageFrame)
  | txFrameConfirm (f : CANMessageFrame)
  | updateTick (busloadTimeExpired : Bool)
  | registerPartner (filters : List NAMEFilter)
deriving Repr

/-- One transition. -/
def step (s : NMState) : NMEvent → NMState
  | .rxFrame f => process_receive_can_message_frame s f
  | .txFrameConfirm f => update_busload s (number_bits_in_message f)
  | .updateTick b => update s b
  | .registerPartner filters =>
    { s with
      store := s.store ++
        [{ name := 0, address := NULL_CAN_ADDRESS, typ := CFType.Partnered,
           filters := filters, initialized := false }]
      partneredControlFunctionList :=
        s.partneredControlFunctionList ++ [s.store.length]
      anyPartnerNeedsInitializing := true }

/-- Run a trace of events from the freshly constructed network manager. -/
def run (events : List NMEvent) : NMState := events.foldl step initState

/-! ## C9: the null and global addresses never resolve -/

/-- C9: in every network state, `get_control_function` returns null for the
null address 254 and the global address 255; the guard `address <
NULL_CAN_ADDRESS` keeps every table access below index 254. -/
theorem C9_null_and_global_never_resolve (s : NMState) (address : Nat)
    (h : address = 254 ∨ address = 255) :
    get_control_function s address = none := by
  rw [get_control_function, if_neg]
  rw [NULL_CAN_ADDRESS]
  omega

/-- Witness for C9 at the initial state and both special addresses. -/
theorem C9_null_and_global_never_resolve_witness :
    get_control_function initState 254 = none ∧ get_control_function initState 255 = none :=
  ⟨C9_null_and_global_never_resolve initState 254 (Or.inl rfl),
   C9_null_and_global_never_resolve initState 255 (Or.inr rfl)⟩

/-! ## C1: the slot/address table invariant -/

/-- An 8-byte address-claim frame for `name`, sent to the global address
with the standard claim priority 6: identifier `0x18EEFF00 + srcAddr`. -/
def address_claim_frame (name srcAddr : Nat) : CANMessageFrame :=
  { identifier := 0x18EEFF00 + srcAddr
    data := [name % 256, name / 256 % 256, 0, 0, 0, 0, 0, 0]
    dataLength := 8
    isExtendedFrame := true }

/-- The C1 invariant, decidably: every occupied slot a < 254 holds a
control function whose current address is a. -/
def slot_address_ok (s : NMState) : Bool :=
  (List.range 254).all (fun a =>
    match tableAt s a with
    | some cid => (getCF s cid).address == a
    | none => true)

/-- Two devices (NAMEs 1 and 2) claim addresses 5 and 6, each settled by an
update; then both claim address 7 within one update period. -/
def conflicting_claims_trace : List NMEvent :=
  [.rxFrame (address_claim_frame 1 5), .updateTick false,
   .rxFrame (address_claim_frame 2 6), .updateTick false,
   .rxFrame (address_claim_frame 1 7), .rxFrame (address_claim_frame 2 7),
   .updateTick false]

set_option maxRecDepth 200000 in
/-- C1 fails on the code: after the conflicting-claims trace — frames
received and `update()` run to quiescence — table slot 5 still holds the
control function of NAME 1, whose address is now the null address 254, so
an occupied slot disagrees with its occupant's address. (The code itself
flags this state as anomalous: `on_control_function_destroyed` logs a
warning when a CF is found at a slot other than its address.) -/
theorem C1_slot_invariant_violated :
    slot_address_ok (run conflicting_claims_trace) = false ∧
    tableAt (run conflicting_claims_trace) 5 = some 0 ∧
    (getCF (run conflicting_claims_trace) 0).name = 1 ∧
    (getCF (run conflicting_claims_trace) 0).address = NULL_CAN_ADDRESS := by
  decide

/-! ## C2: address-claim processing and NAME uniqueness -/

/-- NAME 1 claims address 5 and is settled; the application registers a
partner whose filter (identity number 1) matches NAME 1; then NAME 1
re-claims address 7 and one `update()` runs, finishing the processing of
that claim frame. -/
def partner_binding_trace : List NMEvent :=
  [.rxFrame (address_claim_frame 1 5), .updateTick false,
   .registerPartner [⟨NAMEParameter.IdentityNumber, 1⟩],
   .rxFrame (address_claim_frame 1 7), .updateTick false]

set_option maxRecDepth 200000 in
/-- C2 fails on the code: after the network finishes processing the
address-claim frame carrying NAME 1 from source address 7, slot 7 holds the
(just-bound) partner with NAME 1, but slot 5 ALSO still holds a control
function with NAME 1 — `update_new_partners` copied the claimer's fresh
address into the partner and wrote it to slot 7 while the external CF for
the same NAME was still sitting in slot 5, so the claimed NAME occupies two
slots. -/
theorem C2_claim_uniqueness_violated :
    tableAt (run partner_binding_trace) 7 = some 1 ∧
    (getCF (run partner_binding_trace) 1).name = 1 ∧
    tableAt (run partner_binding_trace) 5 = some 0 ∧
    (getCF (run partner_binding_trace) 0).name = 1 := by
  decide

/-! ## C5: RX dispatch order and the commanded-address handler -/

/-- A commanded-address message: PGN 0x00FED8 broadcast from source 5,
9-byte payload = target NAME 77 (little endian) followed by new address
0x40. -/
def commanded_address_msg : CANMsg :=
  { identifier := 0x18FED805
    source := none
    destination := none
    data := [77, 0, 0, 0, 0, 0, 0, 0, 0x40] }

/-- A network holding one Internal CF with NAME 77 at address 0x1C and the
commanded-address message waiting in the RX queue. -/
def commanded_queue_state : NMState :=
  { initState with
    receiveMessageList := [commanded_address_msg]
    internalControlFunctions := [⟨77, 0x1C, none⟩] }

/-- C5 fails on the code: draining a PGN 0x00FED8 message with a 9-byte
payload from the RX queue performs only the four stages
address-table / protocol / any-CF / global-and-partner — the
commanded-address handler is never invoked during `process_rx_messages`,
and the matching Internal CF is not commanded. -/
theorem C5_commanded_stage_missing_counterexample :
    (process_rx_messages commanded_queue_state).2 =
      [(RxStage.addressTable, commanded_address_msg),
       (RxStage.protocolCallbacks, commanded_address_msg),
       (RxStage.anyControlFunctionCallbacks, commanded_address_msg),
       (RxStage.globalAndPartnerCallbacks, commanded_address_msg)] ∧
    ¬ ((RxStage.commandedAddress, commanded_address_msg) ∈
        (process_rx_messages commanded_queue_state).2) ∧
    (process_rx_messages commanded_queue_state).1.internalControlFunctions =
      [⟨77, 0x1C, none⟩] := by
  decide

theorem setCF_internal_eq (s : NMState) (cid : CFId) (cf : CF) :
    (setCF s cid cf).internalControlFunctions = s.internalControlFunctions := rfl

theorem setTable_internal_eq (s : NMState) (i : Nat) (v : Option CFId) :
    (setTable s i v).internalControlFunctions = s.internalControlFunctions := rfl

theorem uat_evict_internal_eq (s : NMState) (a : Nat) :
    (uat_evict s a).internalControlFunctions = s.internalControlFunctions := by
  rw [uat_evict]
  split
  · split <;> rfl
  · rfl

theorem uat_fill_active_internal_eq (s : NMState) (a : Nat) :
    (uat_fill_active s a).internalControlFunctions = s.internalControlFunctions := by
  rw [uat_fill_active]
  split <;> rfl

theorem uat_fill_inactive_internal_eq (s : NMState) (a : Nat) :
    (uat_fill_inactive s a).internalControlFunctions = s.internalControlFunctions := by
  rw [uat_fill_inactive]
  split <;> rfl

theorem update_address_table_claim_internal_eq (s : NMState) (a : Nat) :
    (update_address_table_claim s a).internalControlFunctions =
      s.internalControlFunctions := by
  rw [update_address_table_claim]
  split
  · rw [uat_fill_inactive_internal_eq, uat_fill_active_internal_eq, uat_evict_internal_eq]
  · rw [uat_evict_internal_eq]

theorem update_address_table_msg_internal_eq (s : NMState) (m : CANMsg) :
    (update_address_table_msg s m).internalControlFunctions =
      s.internalControlFunctions := by
  rw [update_address_table_msg]
  split
  · exact update_address_table_claim_internal_eq _ _
  · rfl

theorem process_rx_go_spec (l : List CANMsg) (s : NMState) :
    (process_rx_messages.go s l).2 =
      l.flatMap (fun m =>
        [(RxStage.addressTable, m), (RxStage.protocolCallbacks, m),
         (RxStage.anyControlFunctionCallbacks, m),
         (RxStage.globalAndPartnerCallbacks, m)]) ∧
    (process_rx_messages.go s l).1.internalControlFunctions =
      s.internalControlFunctions := by
  induction l generalizing s with
  | nil => exact ⟨rfl, rfl⟩
  | cons m rest ih =>
    rw [process_rx_messages.go]
    refine ⟨?_, ?_⟩
    · rw [(ih (update_address_table_msg s m)).1]
      rfl
    · rw [(ih (update_address_table_msg s m)).2,
        update_address_table_msg_internal_eq]

/-- C5 (amended): for every message drained from the RX queue, `update()`
performs exactly, and in this fixed order, (1) `update_address_table`, (2)
the protocol PGN callbacks, (3) the any-control-function callbacks and (4)
the global-and-partner callbacks; the commanded-address handler is NOT part
of the drain and no drain changes any Internal CF's commanded state. The
handler runs only in `protocol_message_callback` (after that path's
global-and-partner dispatch), where a destination-unresolved PGN 0x00FED8
message with a 9-byte payload commands every Internal CF whose full NAME
equals the 8-byte target NAME to the payload's 9th byte. -/
theorem C5_rx_dispatch_amended (s : NMState) (m : CANMsg)
    (hm : m.destination = none ∧
      CANIdentifier.get_parameter_group_number m.identifier = CommandedAddress_PGN ∧
      m.data.length = 9) :
    (process_rx_messages s).2 =
      s.receiveMessageList.flatMap (fun msg =>
        [(RxStage.addressTable, msg), (RxStage.protocolCallbacks, msg),
         (RxStage.anyControlFunctionCallbacks, msg),
         (RxStage.globalAndPartnerCallbacks, msg)]) ∧
    (process_rx_messages s).1.internalControlFunctions = s.internalControlFunctions ∧
    (protocol_message_callback s m).2 =
      [(RxStage.globalAndPartnerCallbacks, m), (RxStage.commandedAddress, m)] ∧
    (protocol_message_callback s m).1.internalControlFunctions =
      s.internalControlFunctions.map (fun icf =>
        if icf.name = decode_claimed_name m.data then
          { icf with commandedAddress := some (m.data.getD 8 0) }
        else icf) := by
  refine ⟨(process_rx_go_spec s.receiveMessageList _).1,
    (process_rx_go_spec s.receiveMessageList _).2, rfl, ?_⟩
  rw [protocol_message_callback, process_can_message_for_commanded_address, if_pos hm]

/-- Witness for C5 (amended) at the concrete commanded-address scenario:
the drain leaves the Internal CF untouched, and the protocol path commands
it to address 0x40. -/
theorem C5_rx_dispatch_amended_witness :
    (process_rx_messages commanded_queue_state).2 =
      commanded_queue_state.receiveMessageList.flatMap (fun msg =>
        [(RxStage.addressTable, msg), (RxStage.protocolCallbacks, msg),
         (RxStage.anyControlFunctionCallbacks, msg),
         (RxStage.globalAndPartnerCallbacks, msg)]) ∧
    (process_rx_messages commanded_queue_state).1.internalControlFunctions =
      commanded_queue_state.internalControlFunctions ∧
    (protocol_message_callback commanded_queue_state commanded_address_msg).2 =
      [(RxStage.globalAndPartnerCallbacks, commanded_address_msg),
       (RxStage.commandedAddress, commanded_address_msg)] ∧
    (protocol_message_callback commanded_queue_state commanded_address_msg).1.internalControlFunctions =
      commanded_queue_state.internalControlFunctions.map (fun icf =>
        if icf.name = decode_claimed_name commanded_address_msg.data then
          { icf with commandedAddress := some (commanded_address_msg.data.getD 8 0) }
        else icf) :=
  C5_rx_dispatch_amended commanded_queue_state commanded_address_msg
    ⟨rfl, by decide, rfl⟩

/-! ## Infrastructure for the quiescent address-claim theorem (C2)

Small algebraic facts about the state operations, used to compute the
effect of one address-claim frame processed from a well-formed quiescent
state. -/

theorem tableAt_setCF (s : NMState) (cid : CFId) (cf : CF) (i : Nat) :
    tableAt (setCF s cid cf) i = tableAt s i := rfl

theorem getCF_setTable (s : NMState) (i : Nat) (v : Option CFId) (cid : CFId) :
    getCF (setTable s i v) cid = getCF s cid := rfl

theorem inactive_setCF (s : NMState) (cid : CFId) (cf : CF) :
    (setCF s cid cf).inactiveControlFunctions = s.inactiveControlFunctions := rfl

theorem inactive_setTable (s : NMState) (i : Nat) (v : Option CFId) :
    (setTable s i v).inactiveControlFunctions = s.inactiveControlFunctions := rfl

theorem storeLen_setCF (s : NMState) (cid : CFId) (cf : CF) :
    (setCF s cid cf).store.length = s.store.length := List.length_set ..

theorem storeLen_setTable (s : NMState) (i : Nat) (v : Option CFId) :
    (setTable s i v).store.length = s.store.length := rfl

theorem tableLen_setCF (s : NMState) (cid : CFId) (cf : CF) :
    (setCF s cid cf).controlFunctionTable.length = s.controlFunctionTable.length := rfl

theorem tableLen_setTable (s : NMState) (i : Nat) (v : Option CFId) :
    (setTable s i v).controlFunctionTable.length = s.controlFunctionTable.length :=
  List.length_set ..

theorem tableAt_setTable_self (s : NMState) (i : Nat) (v : Option CFId)
    (h : i < s.controlFunctionTable.length) :
    tableAt (setTable s i v) i = v := by
  show (s.controlFunctionTable.set i v).getD i none = v
  rw [List.getD_eq_getElem?_getD, List.getElem?_set_self h]
  rfl

theorem tableAt_setTable_ne (s : NMState) (i : Nat) (v : Option CFId) (j : Nat)
    (h : i ≠ j) :
    tableAt (setTable s i v) j = tableAt s j := by
  show (s.controlFunctionTable.set i v).getD j none = s.controlFunctionTable.getD j none
  rw [List.getD_eq_getElem?_getD, List.getElem?_set_ne h, ← List.getD_eq_getElem?_getD]

theorem getCF_setCF_self (s : NMState) (cid : CFId) (cf : CF)
    (h : cid < s.store.length) :
    getCF (setCF s cid cf) cid = cf := by
  show (s.store.set cid cf).getD cid default = cf
  rw [List.getD_eq_getElem?_getD, List.getElem?_set_self h]
  rfl

theorem getCF_setCF_ne (s : NMState) (cid : CFId) (cf : CF) (c2 : CFId)
    (h : cid ≠ c2) :
    getCF (setCF s cid cf) c2 = getCF s c2 := by
  show (s.store.set cid cf).getD c2 default = s.store.getD c2 default
  rw [List.getD_eq_getElem?_getD, List.getElem?_set_ne h, ← List.getD_eq_getElem?_getD]

theorem tableAt_none_of_ge_length (s : NMState) (i : Nat)
    (h : s.controlFunctionTable.length ≤ i) : tableAt s i = none := by
  show s.controlFunctionTable.getD i none = none
  rw [List.getD_eq_getElem?_getD, List.getElem?_eq_none h]
  rfl

theorem foldl_fixed {α β : Type} (f : α → β → α) (s : α) (l : List β)
    (h : ∀ x ∈ l, f s x = s) : l.foldl f s = s := by
  induction l with
  | nil => rfl
  | cons x xs ih =>
    rw [List.foldl_cons, h x (List.mem_cons_self x xs)]
    exact ih (fun y hy => h y (List.mem_cons_of_mem x hy))

theorem foldl_range_single_change {α : Type} (f : α → Nat → α) (s t : α) (n a : Nat)
    (ha : a < n) (hs : ∀ i, i < a → f s i = s) (hfa : f s a = t)
    (ht : ∀ i, a < i → i < n → f t i = t) :
    (List.range n).foldl f s = t := by
  have key : ∀ m, a < m → m ≤ n → (List.range m).foldl f s = t := by
    intro m
    induction m with
    | zero => omega
    | succ k ih =>
      intro h1 h2
      rw [List.range_succ, List.foldl_append]
      by_cases hk : a < k
      · rw [ih hk (by omega)]
        simp only [List.foldl_cons, List.foldl_nil]
        exact ht k hk (by omega)
      · have hak : a = k := by omega
        subst hak
        rw [foldl_fixed f s (List.range a) (fun x hx => hs x (List.mem_range.mp hx))]
        simp only [List.foldl_cons, List.foldl_nil]
        exact hfa
  exact key n ha (le_refl n)

/-- The table null-out pass does nothing when no table entry other than the
found CF holds the claiming address. -/
theorem null_others_active_id (s : NMState) (found : Option CFId) (a : Nat)
    (h : ∀ i, i < TABLE_SIZE → ∀ cid, tableAt s i = some cid →
        found = some cid ∨ (getCF s cid).address ≠ a) :
    null_others_active s found a = s := by
  rw [null_others_active]
  apply foldl_fixed
  intro i hi
  rcases htab : tableAt s i with _ | cid
  · simp only [htab]
  · simp only [htab]
    rw [if_neg]
    rintro ⟨hfnd, haddr⟩
    rcases h i (List.mem_range.mp hi) cid htab with hc | hc
    · exact hfnd hc
    · exact hc haddr

/-- The table null-out pass, when exactly the occupant `d` of the claimed
slot triggers: its address becomes the null address. -/
theorem null_others_active_single (s : NMState) (found : Option CFId) (a : Nat) (d : CFId)
    (ha : a < TABLE_SIZE)
    (hd : tableAt s a = some d) (hfd : found ≠ some d)
    (haddr : (getCF s d).address = a)
    (h : ∀ i, i < TABLE_SIZE → i ≠ a → ∀ cid, tableAt s i = some cid →
        cid ≠ d ∧ (found = some cid ∨ (getCF s cid).address ≠ a)) :
    null_others_active s found a =
      setCF s d { getCF s d with address := CANIdentifier.NULL_ADDRESS } := by
  rw [null_others_active]
  apply foldl_range_single_change _ _ _ TABLE_SIZE a ha
  · intro i hia
    rcases htab : tableAt s i with _ | cid
    · simp only [htab]
    · simp only [htab]
      rw [if_neg]
      rintro ⟨hfnd, haddr2⟩
      rcases h i (by omega) (by omega) cid htab with ⟨_, hc | hc⟩
      · exact hfnd hc
      · exact hc haddr2
  · simp only [hd]
    rw [if_pos ⟨hfd, haddr⟩]
  · intro i hai hi
    rcases htab : tableAt (setCF s d { getCF s d with address := CANIdentifier.NULL_ADDRESS }) i
      with _ | cid
    · simp only [htab]
    · simp only [htab]
      rw [tableAt_setCF] at htab
      rcases h i hi (by omega) cid htab with ⟨hcd, hc⟩
      rw [if_neg]
      rintro ⟨hfnd, haddr2⟩
      rw [getCF_setCF_ne s d _ cid (fun he => hcd he.symm)] at haddr2
      rcases hc with hc | hc
      · exact hfnd hc
      · exact hc haddr2

/-- The inactive null-out pass does nothing when no inactive CF other than
the found one holds the claiming address. -/
theorem null_others_inactive_id (s : NMState) (found : Option CFId) (a : Nat)
    (h : ∀ cid ∈ s.inactiveControlFunctions,
        found = some cid ∨ (getCF s cid).address ≠ a) :
    null_others_inactive s found a = s := by
  rw [null_others_inactive]
  apply foldl_fixed
  intro cid hcid
  rw [if_neg]
  rintro ⟨hfnd, haddr⟩
  rcases h cid hcid with hc | hc
  · exact hfnd hc
  · exact hc haddr

theorem foldl_preserve_mem {α β : Type} (P : α → Prop) (f : α → β → α) :
    ∀ (l : List β) (s : α), (∀ acc x, x ∈ l → P acc → P (f acc x)) → P s →
      P (l.foldl f s) := by
  intro l
  induction l with
  | nil => intro s _ hs; exact hs
  | cons x xs ih =>
    intro s hf hs
    exact ih (f s x) (fun acc y hy hacc => hf acc y (List.mem_cons_of_mem x hy) hacc)
      (hf s x (List.mem_cons_self x xs) hs)

theorem getCF_setCF_oob (s : NMState) (cid : CFId) (cf : CF)
    (h : s.store.length ≤ cid) : getCF (setCF s cid cf) cid = getCF s cid := by
  show (s.store.set cid cf).getD cid default = s.store.getD cid default
  rw [List.set_eq_of_length_le h]

theorem setCF_setCF_collapse (s : NMState) (cid : CFId) (cf cf2 : CF) :
    setCF (setCF s cid cf) cid cf2 = setCF s cid cf2 := by
  rw [setCF, setCF, setCF]
  simp only [List.set_set]

theorem CF_renull_eq (w : CF) (hw : w.address = CANIdentifier.NULL_ADDRESS) :
    { w with address := CANIdentifier.NULL_ADDRESS } = w := by
  rw [← hw]

/-- The inactive null-out pass when at most the CF `d` can trigger: it
either does nothing or nulls exactly `d`. -/
theorem null_others_inactive_sub (s : NMState) (found : Option CFId) (a : Nat) (d : CFId)
    (h : ∀ x ∈ s.inactiveControlFunctions,
        found = some x ∨ (getCF s x).address ≠ a ∨ x = d) :
    null_others_inactive s found a = s ∨
      null_others_inactive s found a =
        setCF s d { getCF s d with address := CANIdentifier.NULL_ADDRESS } := by
  rw [null_others_inactive]
  refine foldl_preserve_mem (fun acc => acc = s ∨
    acc = setCF s d { getCF s d with address := CANIdentifier.NULL_ADDRESS })
    _ s.inactiveControlFunctions s ?_ (Or.inl rfl)
  · intro acc x hx hacc
    by_cases htr : found ≠ some x ∧ (getCF acc x).address = a
    · rw [if_pos htr]
      rcases hacc with hacc | hacc
      · subst hacc
        rcases h x hx with hc | hc | hc
        · exact absurd hc htr.1
        · exact absurd htr.2 hc
        · subst hc; right; rfl
      · subst hacc
        by_cases hxd : x = d
        · rw [hxd]
          right
          rw [setCF_setCF_collapse]
          by_cases hdl : d < s.store.length
          · rw [getCF_setCF_self s d _ hdl, CF_renull_eq _ rfl]
          · rw [getCF_setCF_oob s d _ (le_of_not_lt hdl)]
        · exfalso
          rw [getCF_setCF_ne s d _ x (fun he => hxd he.symm)] at htr
          rcases h x hx with hc | hc | hc
          · exact htr.1 hc
          · exact hc htr.2
          · exact hxd hc
    · rw [if_neg htr]; exact hacc

theorem null_addr_eq : NULL_CAN_ADDRESS = CANIdentifier.NULL_ADDRESS := rfl

/-- What the eviction block leaves behind, provided the claimed slot is
empty or holds a CF whose address was stolen: an empty claimed slot, other
slots unchanged, all NAMEs unchanged, every address unchanged or nulled,
records of CFs other than the old occupant unchanged, and an inactive list
extending the old one only by nulled CFs. -/
theorem uat_evict_facts (T : NMState) (a : Nat)
    (hslotA : tableAt T a = none ∨
      ∃ d, tableAt T a = some d ∧ (getCF T d).address = CANIdentifier.NULL_ADDRESS) :
    ∃ T1, uat_evict T a = T1 ∧
      tableAt T1 a = none ∧
      (∀ i, i ≠ a → tableAt T1 i = tableAt T i) ∧
      (∀ cid, (getCF T1 cid).name = (getCF T cid).name) ∧
      (∀ cid, (getCF T1 cid).address = (getCF T cid).address ∨
        (getCF T1 cid).address = CANIdentifier.NULL_ADDRESS) ∧
      (∀ cid, tableAt T a ≠ some cid → getCF T1 cid = getCF T cid) ∧
      (∀ x ∈ T1.inactiveControlFunctions, x ∈ T.inactiveControlFunctions ∨
        (getCF T1 x).address = CANIdentifier.NULL_ADDRESS) ∧
      (∀ x ∈ T.inactiveControlFunctions, x ∈ T1.inactiveControlFunctions) ∧
      T1.controlFunctionTable.length = T.controlFunctionTable.length ∧
      T1.store.length = T.store.length := by
  rcases hslotA with hnone | ⟨d, hd, h254⟩
  · refine ⟨T, ?_, hnone, fun i _ => rfl, fun cid => rfl, fun cid => Or.inl rfl,
      fun cid _ => rfl, fun x hx => Or.inl hx, fun x hx => hx, rfl, rfl⟩
    rw [uat_evict]
    simp only [hnone]
  · have hlena : a < T.controlFunctionTable.length := by
      by_contra hge
      rw [tableAt_none_of_ge_length T a (by omega)] at hd
      cases hd
    refine ⟨setTable
        { setCF T d { getCF T d with address := NULL_CAN_ADDRESS } with
          inactiveControlFunctions := T.inactiveControlFunctions ++ [d] } a none,
      ?_, ?_, ?_, ?_, ?_, ?_, ?_, ?_, ?_, ?_⟩
    · rw [uat_evict]
      simp only [hd]
      rw [if_pos h254]
    · exact tableAt_setTable_self _ a none hlena
    · intro i hia
      exact tableAt_setTable_ne _ a none i (fun he => hia he.symm)
    · intro cid
      show (getCF (setCF T d { getCF T d with address := NULL_CAN_ADDRESS }) cid).name = _
      by_cases hcd : cid = d
      · subst hcd
        by_cases hdl : cid < T.store.length
        · rw [getCF_setCF_self T cid _ hdl]
        · rw [getCF_setCF_oob T cid _ (le_of_not_lt hdl)]
      · rw [getCF_setCF_ne T d _ cid (fun he => hcd he.symm)]
    · intro cid
      show (getCF (setCF T d { getCF T d with address := NULL_CAN_ADDRESS }) cid).address = _ ∨
        (getCF (setCF T d { getCF T d with address := NULL_CAN_ADDRESS }) cid).address = _
      by_cases hcd : cid = d
      · subst hcd
        by_cases hdl : cid < T.store.length
        · rw [getCF_setCF_self T cid _ hdl]
          exact Or.inr rfl
        · rw [getCF_setCF_oob T cid _ (le_of_not_lt hdl)]
          exact Or.inl rfl
      · rw [getCF_setCF_ne T d _ cid (fun he => hcd he.symm)]
        exact Or.inl rfl
    · intro cid hne
      have hcd : cid ≠ d := fun he => hne (he ▸ hd)
      show getCF (setCF T d { getCF T d with address := NULL_CAN_ADDRESS }) cid = _
      rw [getCF_setCF_ne T d _ cid (fun he => hcd he.symm)]
    · intro x hx
      rcases List.mem_append.mp hx with hx | hx
      · exact Or.inl hx
      · have hxd : x = d := List.mem_singleton.mp hx
        subst hxd
        right
        show (getCF (setCF T x { getCF T x with address := NULL_CAN_ADDRESS }) x).address = _
        by_cases hdl : x < T.store.length
        · rw [getCF_setCF_self T x _ hdl]
          rfl
        · rw [getCF_setCF_oob T x _ (le_of_not_lt hdl)]
          exact h254
    · intro x hx
      exact List.mem_append_left _ hx
    · exact List.length_set ..
    · exact List.length_set ..

/-- `update_address_table` does nothing when the claimed slot already holds
a CF whose address is the claimed (valid) address. -/
theorem uat_noop (T : NMState) (a : Nat) (c : CFId)
    (ha : a < 254)
    (hocc : tableAt T a = some c)
    (haddr : (getCF T c).address = a) :
    update_address_table_claim T a = T := by
  have hev : uat_evict T a = T := by
    rw [uat_evict]
    simp only [hocc]
    rw [if_neg]
    rw [haddr, CANIdentifier.NULL_ADDRESS]
    omega
  rw [update_address_table_claim, hev,
    if_neg (show ¬ tableAt T a = none by rw [hocc]; exact fun h => Option.noConfusion h)]

/-- `update_address_table` moves the unique CF now holding the claimed
address from its old slot to the claimed slot (evicting a stolen-address
occupant first). -/
theorem uat_move (T : NMState) (a b : Nat) (c : CFId)
    (hlen : T.controlFunctionTable.length = TABLE_SIZE)
    (ha : a < 254) (hb : b < 254) (hba : b ≠ a)
    (hslotA : tableAt T a = none ∨
      ∃ d, tableAt T a = some d ∧ (getCF T d).address = CANIdentifier.NULL_ADDRESS)
    (hc : tableAt T b = some c)
    (haddr : (getCF T c).address = a)
    (huniqT : ∀ i, i < TABLE_SIZE → i ≠ b → ∀ cid, tableAt T i = some cid →
        (getCF T cid).address ≠ a)
    (huniqI : ∀ x ∈ T.inactiveControlFunctions, (getCF T x).address = a → x = c) :
    ∃ finalT, update_address_table_claim T a = finalT ∧
      tableAt finalT a = some c ∧
      tableAt finalT b = none ∧
      (∀ i, i ≠ a → i ≠ b → tableAt finalT i = tableAt T i) ∧
      (∀ cid, (getCF finalT cid).name = (getCF T cid).name) := by
  obtain ⟨T1, hev, hT1a, hT1i, hT1names, hT1addr, hT1keep, hT1inact, hT1sub, hT1tlen,
    hT1slen⟩ := uat_evict_facts T a hslotA
  have hconeq : tableAt T a ≠ some c := by
    rcases hslotA with hnone | ⟨d, hd, h254⟩
    · rw [hnone]; exact fun h => Option.noConfusion h
    · rw [hd]
      intro h
      have hdc : d = c := by injection h
      rw [hdc, haddr] at h254
      rw [CANIdentifier.NULL_ADDRESS] at h254
      omega
  have hT1b : tableAt T1 b = some c := by rw [hT1i b hba, hc]
  have hT1c : getCF T1 c = getCF T c := hT1keep c hconeq
  have hT1lenb : b < T1.controlFunctionTable.length := by rw [hT1tlen, hlen, TABLE_SIZE]; omega
  have hT1lena : a < T1.controlFunctionTable.length := by rw [hT1tlen, hlen, TABLE_SIZE]; omega
  rw [update_address_table_claim, hev, if_pos hT1a]
  -- the active scan finds exactly slot b
  have hfindA : (List.range NULL_CAN_ADDRESS).find? (fun i =>
      (i != a) &&
      (match tableAt T1 i with
       | some cid => (getCF T1 cid).address == a
       | none => false)) = some b := by
    have hpb : ((b != a) &&
        (match tableAt T1 b with
         | some cid => (getCF T1 cid).address == a
         | none => false)) = true := by
      rw [hT1b]
      simp only [Bool.and_eq_true, bne_iff_ne, beq_iff_eq]
      exact ⟨hba, by rw [hT1c, haddr]⟩
    have huniq : ∀ x, x ∈ List.range NULL_CAN_ADDRESS → ((x != a) &&
        (match tableAt T1 x with
         | some cid => (getCF T1 cid).address == a
         | none => false)) = true → x = b := by
      intro x hxmem hx
      by_contra hxb
      simp only [Bool.and_eq_true, bne_iff_ne] at hx
      rcases htab : tableAt T1 x with _ | cid
      · rw [htab] at hx; exact Bool.false_ne_true hx.2
      · rw [htab] at hx
        have haddrx : (getCF T1 cid).address = a := by
          have := hx.2
          simp only [beq_iff_eq] at this
          exact this
        have hxT : tableAt T x = some cid := by rw [← hT1i x hx.1, htab]
        have hxlt : x < TABLE_SIZE := by
          have := List.mem_range.mp hxmem
          rw [NULL_CAN_ADDRESS] at this
          rw [TABLE_SIZE]
          omega
        have hne := huniqT x hxlt hxb cid hxT
        rcases hT1addr cid with he | he
        · rw [he] at haddrx; exact hne haddrx
        · rw [he] at haddrx
          rw [CANIdentifier.NULL_ADDRESS] at haddrx
          omega
    rcases hres : (List.range NULL_CAN_ADDRESS).find? (fun i =>
        (i != a) &&
        (match tableAt T1 i with
         | some cid => (getCF T1 cid).address == a
         | none => false)) with _ | x
    · exfalso
      have := List.find?_eq_none.mp hres b
        (List.mem_range.mpr (by rw [NULL_CAN_ADDRESS]; omega))
      exact this hpb
    · have hx := List.find?_some hres
      have hxmem := List.mem_of_find?_eq_some hres
      exact congrArg some (huniq x hxmem hx)
  rw [uat_fill_active]
  simp only [hfindA, hT1b]
  set T2 := setTable (setTable T1 a (some c)) b none with hT2
  have hT2a : tableAt T2 a = some c := by
    rw [hT2, tableAt_setTable_ne _ b none a hba, tableAt_setTable_self _ a _ hT1lena]
  have hT2b : tableAt T2 b = none := by
    rw [hT2, tableAt_setTable_self _ b none (by rw [tableLen_setTable]; exact hT1lenb)]
  have hT2i : ∀ i, i ≠ a → i ≠ b → tableAt T2 i = tableAt T1 i := by
    intro i hia hib
    rw [hT2, tableAt_setTable_ne _ b none i (fun he => hib he.symm),
      tableAt_setTable_ne _ a _ i (fun he => hia he.symm)]
  have hT2g : ∀ cid, getCF T2 cid = getCF T1 cid := fun cid => rfl
  have hT2inact : T2.inactiveControlFunctions = T1.inactiveControlFunctions := rfl
  rw [uat_fill_inactive]
  rcases hres : T2.inactiveControlFunctions.find? (fun cid =>
      (getCF T2 cid).address == a) with _ | x
  · refine ⟨T2, rfl, hT2a, hT2b, ?_, ?_⟩
    · intro i hia hib
      rw [hT2i i hia hib, hT1i i hia]
    · intro cid
      rw [hT2g, hT1names]
  · have hx := List.find?_some hres
    have hxmem := List.mem_of_find?_eq_some hres
    simp only [beq_iff_eq] at hx
    rw [hT2g] at hx
    rw [hT2inact] at hxmem
    have hxc : x = c := by
      rcases hT1inact x hxmem with hxT | hx254
      · rcases hT1addr x with he | he
        · exact huniqI x hxT (by rw [← he, hx])
        · rw [he] at hx
          rw [CANIdentifier.NULL_ADDRESS] at hx
          omega
      · rw [hx254] at hx
        rw [CANIdentifier.NULL_ADDRESS] at hx
        omega
    subst hxc
    refine ⟨setTable T2 a (some x), rfl, ?_, ?_, ?_, ?_⟩
    · rw [tableAt_setTable_self _ a _ (by
        rw [hT2, tableLen_setTable, tableLen_setTable]; exact hT1lena)]
    · rw [tableAt_setTable_ne _ a _ b (fun he => hba he.symm), hT2b]
    · intro i hia hib
      rw [tableAt_setTable_ne _ a _ i (fun he => hia he.symm), hT2i i hia hib, hT1i i hia]
    · intro cid
      rw [show getCF (setTable T2 a (some x)) cid = getCF T1 cid from rfl, hT1names]

/-- `update_address_table` installs the unique inactive CF holding the
claimed address into the claimed slot (evicting a stolen-address occupant
first) when no active CF holds that address. -/
theorem uat_install (T : NMState) (a : Nat) (c : CFId)
    (hlen : T.controlFunctionTable.length = TABLE_SIZE)
    (ha : a < 254)
    (hslotA : tableAt T a = none ∨
      ∃ d, tableAt T a = some d ∧ (getCF T d).address = CANIdentifier.NULL_ADDRESS)
    (hcnot : ∀ i, tableAt T i ≠ some c)
    (hcin : c ∈ T.inactiveControlFunctions)
    (haddr : (getCF T c).address = a)
    (huniqT : ∀ i, i < TABLE_SIZE → i ≠ a → ∀ cid, tableAt T i = some cid →
        (getCF T cid).address ≠ a)
    (huniqI : ∀ x ∈ T.inactiveControlFunctions, (getCF T x).address = a → x = c) :
    ∃ finalT, update_address_table_claim T a = finalT ∧
      tableAt finalT a = some c ∧
      (∀ i, i ≠ a → tableAt finalT i = tableAt T i) ∧
      (∀ cid, (getCF finalT cid).name = (getCF T cid).name) := by
  obtain ⟨T1, hev, hT1a, hT1i, hT1names, hT1addr, hT1keep, hT1inact, hT1sub, hT1tlen,
    hT1slen⟩ := uat_evict_facts T a hslotA
  have hT1c : getCF T1 c = getCF T c := hT1keep c (hcnot a)
  have hT1lena : a < T1.controlFunctionTable.length := by rw [hT1tlen, hlen, TABLE_SIZE]; omega
  rw [update_address_table_claim, hev, if_pos hT1a]
  have hfindA : (List.range NULL_CAN_ADDRESS).find? (fun i =>
      (i != a) &&
      (match tableAt T1 i with
       | some cid => (getCF T1 cid).address == a
       | none => false)) = none := by
    rw [List.find?_eq_none]
    intro x hxmem hx
    simp only [Bool.and_eq_true, bne_iff_ne] at hx
    rcases htab : tableAt T1 x with _ | cid
    · rw [htab] at hx; exact Bool.false_ne_true hx.2
    · rw [htab] at hx
      have haddrx : (getCF T1 cid).address = a := by
        have := hx.2
        simp only [beq_iff_eq] at this
        exact this
      have hxT : tableAt T x = some cid := by rw [← hT1i x hx.1, htab]
      have hxlt : x < TABLE_SIZE := by
        have := List.mem_range.mp hxmem
        rw [NULL_CAN_ADDRESS] at this
        rw [TABLE_SIZE]
        omega
      have hne := huniqT x hxlt hx.1 cid hxT
      rcases hT1addr cid with he | he
      · rw [he] at haddrx; exact hne haddrx
      · rw [he] at haddrx
        rw [CANIdentifier.NULL_ADDRESS] at haddrx
        omega
  rw [uat_fill_active]
  simp only [hfindA]
  rw [uat_fill_inactive]
  rcases hres : T1.inactiveControlFunctions.find? (fun cid =>
      (getCF T1 cid).address == a) with _ | x
  · exfalso
    have := List.find?_eq_none.mp hres c (hT1sub c hcin)
    apply this
    simp only [beq_iff_eq]
    rw [hT1c, haddr]
  · have hx := List.find?_some hres
    have hxmem := List.mem_of_find?_eq_some hres
    simp only [beq_iff_eq] at hx
    have hxc : x = c := by
      rcases hT1inact x hxmem with hxT | hx254
      · rcases hT1addr x with he | he
        · exact huniqI x hxT (by rw [← he, hx])
        · rw [he] at hx
          rw [CANIdentifier.NULL_ADDRESS] at hx
          omega
      · rw [hx254] at hx
        rw [CANIdentifier.NULL_ADDRESS] at hx
        omega
    subst hxc
    refine ⟨setTable T1 a (some x), rfl, ?_, ?_, ?_⟩
    · rw [tableAt_setTable_self _ a _ hT1lena]
    · intro i hia
      rw [tableAt_setTable_ne _ a _ i (fun he => hia he.symm), hT1i i hia]
    · intro cid
      rw [show getCF (setTable T1 a (some x)) cid = getCF T1 cid from rfl, hT1names]

theorem ucf_find_active_spec (s : NMState) (n : Nat) (c : CFId)
    (h : ucf_find_active s n = some c) :
    ∃ i, i < TABLE_SIZE ∧ tableAt s i = some c ∧ (getCF s c).name = n := by
  rw [ucf_find_active] at h
  obtain ⟨i, hi, hfi⟩ := List.exists_of_findSome?_eq_some h
  refine ⟨i, List.mem_range.mp hi, ?_⟩
  rcases htab : tableAt s i with _ | cid
  · simp only [htab] at hfi
    exact Option.noConfusion hfi
  · simp only [htab] at hfi
    by_cases hn : ((getCF s cid).name == n) = true
    · rw [if_pos hn] at hfi
      have hcc : cid = c := by injection hfi
      subst hcc
      exact ⟨rfl, beq_iff_eq.mp hn⟩
    · rw [if_neg hn] at hfi
      exact Option.noConfusion hfi

theorem ucf_find_active_none (s : NMState) (n : Nat)
    (h : ucf_find_active s n = none) :
    ∀ i, i < TABLE_SIZE → ∀ cid, tableAt s i = some cid → (getCF s cid).name ≠ n := by
  rw [ucf_find_active, List.findSome?_eq_none_iff] at h
  intro i hi cid htab hname
  have hfi := h i (List.mem_range.mpr hi)
  simp only [htab] at hfi
  rw [if_pos (beq_iff_eq.mpr hname)] at hfi
  exact Option.noConfusion hfi

theorem ucf_find_inactive_spec (s : NMState) (n : Nat) (c : CFId)
    (h : ucf_find_inactive s n = some c) :
    c ∈ s.inactiveControlFunctions ∧ (getCF s c).name = n := by
  rw [ucf_find_inactive] at h
  refine ⟨List.mem_of_find?_eq_some h, ?_⟩
  have hp := List.find?_some h
  exact beq_iff_eq.mp hp

theorem ucf_find_inactive_none (s : NMState) (n : Nat)
    (h : ucf_find_inactive s n = none) :
    ∀ cid ∈ s.inactiveControlFunctions, (getCF s cid).name ≠ n := by
  rw [ucf_find_inactive, List.find?_eq_none] at h
  intro cid hcid hname
  exact h cid hcid (beq_iff_eq.mpr hname)

theorem ucf_find_partner_spec (s : NMState) (n : Nat) (p : CFId)
    (h : ucf_find_partner s n = some p) :
    p ∈ s.partneredControlFunctionList ∧
      check_matches_name (getCF s p).filters n = true := by
  rw [ucf_find_partner] at h
  refine ⟨List.mem_of_find?_eq_some h, ?_⟩
  have hp := List.find?_some (p := fun pid => check_matches_name (getCF s pid).filters n) h
  exact hp

theorem tableAt_update_busload_history (s : NMState) (b : Bool) (i : Nat) :
    tableAt (update_busload_history s b) i = tableAt s i := by
  rw [update_busload_history]
  split <;> rfl

theorem getCF_update_busload_history (s : NMState) (b : Bool) (cid : CFId) :
    getCF (update_busload_history s b) cid = getCF s cid := by
  rw [update_busload_history]
  split <;> rfl

/-- Reduction of one `update()` from a state holding exactly one queued
address-claim message and no pending partner binding. -/
theorem update_pipeline (X : NMState) (b : Bool) (msg : CANMsg) (a : Nat)
    (hflag : X.anyPartnerNeedsInitializing = false)
    (hq : X.receiveMessageList = [msg])
    (hpgn : CANIdentifier.get_parameter_group_number msg.identifier = AddressClaim_PGN)
    (hmsga : CANIdentifier.get_source_address msg.identifier = a) :
    update X b = update_busload_history
      (update_address_table_claim { X with receiveMessageList := [] } a) b := by
  rw [update, update_new_partners, if_neg (by rw [hflag]; exact Bool.false_ne_true)]
  rw [process_rx_messages, hq]
  rw [process_rx_messages.go, process_rx_messages.go]
  rw [update_address_table_msg, if_pos hpgn, hmsga]

/-! ## C2: amended claim-processing infrastructure -/

theorem tableAt_prcmf (s : NMState) (f : CANMessageFrame) (i : Nat) :
    tableAt (process_receive_can_message_frame s f) i =
      tableAt (update_control_functions s f) i := rfl

theorem getCF_prcmf (s : NMState) (f : CANMessageFrame) (cid : CFId) :
    getCF (process_receive_can_message_frame s f) cid =
      getCF (update_control_functions s f) cid := rfl

theorem flag_prcmf (s : NMState) (f : CANMessageFrame) :
    (process_receive_can_message_frame s f).anyPartnerNeedsInitializing =
      (update_control_functions s f).anyPartnerNeedsInitializing := rfl

theorem queue_prcmf (s : NMState) (f : CANMessageFrame) :
    (process_receive_can_message_frame s f).receiveMessageList =
      (update_control_functions s f).receiveMessageList ++
        [{ identifier := f.identifier
           source := get_control_function (update_control_functions s f)
             (CANIdentifier.get_source_address f.identifier)
           destination := get_control_function (update_control_functions s f)
             (CANIdentifier.get_destination_address f.identifier)
           data := f.data.take f.dataLength }] := rfl

theorem getCF_append_self (s : NMState) (cf : CF) :
    getCF { s with store := s.store ++ [cf] } s.store.length = cf := by
  show (s.store ++ [cf]).getD s.store.length default = cf
  rw [List.getD_eq_getElem?_getD, List.getElem?_append_right (le_refl _), Nat.sub_self]
  rfl

theorem getCF_append_lt (s : NMState) (cf : CF) (cid : CFId)
    (h : cid < s.store.length) :
    getCF { s with store := s.store ++ [cf] } cid = getCF s cid := by
  show (s.store ++ [cf]).getD cid default = s.store.getD cid default
  rw [List.getD_eq_getElem?_getD, List.getD_eq_getElem?_getD,
    List.getElem?_append_left h]

theorem tableAt_append (s : NMState) (cf : CF) (i : Nat) :
    tableAt { s with store := s.store ++ [cf] } i = tableAt s i := rfl

theorem inactive_append (s : NMState) (cf : CF) :
    ({ s with store := s.store ++ [cf] } : NMState).inactiveControlFunctions =
      s.inactiveControlFunctions := rfl

theorem tableLen_append (s : NMState) (cf : CF) :
    ({ s with store := s.store ++ [cf] } : NMState).controlFunctionTable.length =
      s.controlFunctionTable.length := rfl

theorem storeLen_append (s : NMState) (cf : CF) :
    ({ s with store := s.store ++ [cf] } : NMState).store.length =
      s.store.length + 1 := by
  show (s.store ++ [cf]).length = s.store.length + 1
  rw [List.length_append]
  rfl

/-- The inactive null-out pass is the identity whenever every inactive CF
already holds the null address (and the claimed address is valid). -/
theorem noi_id_of_null_inactive (s : NMState) (found : Option CFId) (a : Nat)
    (ha : a < 254)
    (hin : ∀ x ∈ s.inactiveControlFunctions,
      (getCF s x).address = CANIdentifier.NULL_ADDRESS) :
    null_others_inactive s found a = s := by
  apply null_others_inactive_id
  intro x hx
  right
  rw [hin x hx, CANIdentifier.NULL_ADDRESS]
  omega

/-- The table null-out pass is the identity on a slot-consistent table whose
claimed slot is empty or already holds the found CF. -/
theorem noa_id_of_consistent (s : NMState) (found : Option CFId) (a : Nat)
    (hmatch : ∀ i cid, tableAt s i = some cid → (getCF s cid).address = i)
    (hslot : ∀ cid, tableAt s a = some cid → found = some cid) :
    null_others_active s found a = s := by
  apply null_others_active_id
  intro i hi cid htab
  by_cases hia : i = a
  · subst hia
    exact Or.inl (hslot cid htab)
  · right
    rw [hmatch i cid htab]
    exact hia

/-- On a slot-consistent table with NAME-unique occupants, the table
null-out pass nulls exactly the occupant of the claimed slot when that
occupant is not the found CF. -/
theorem noa_single_of_consistent (s : NMState) (found : Option CFId) (a : Nat) (d : CFId)
    (hmatch : ∀ i cid, tableAt s i = some cid → (getCF s cid).address = i)
    (hnames : ∀ i j ci cj, tableAt s i = some ci → tableAt s j = some cj →
        (getCF s ci).name = (getCF s cj).name → i = j)
    (ha : a < 254)
    (hd : tableAt s a = some d) (hfd : found ≠ some d) :
    null_others_active s found a =
      setCF s d { getCF s d with address := CANIdentifier.NULL_ADDRESS } := by
  apply null_others_active_single s found a d (by rw [TABLE_SIZE]; omega) hd hfd
    (hmatch a d hd)
  intro i hi hia cid htab
  constructor
  · intro he
    rw [he] at htab
    exact hia (hnames i a d d htab hd rfl)
  · right
    rw [hmatch i cid htab]
    exact hia

theorem CF_set_addr_name (w : CF) (x : Nat) :
    ({ w with address := x } : CF).name = w.name := rfl

theorem CF_set_addr_addr (w : CF) (x : Nat) :
    ({ w with address := x } : CF).address = x := rfl

/-- The target shape shared by the four search outcomes of
`update_control_functions` on an address-claim frame: the post-claim state
`X1` leaves the busload-invisible fields alone, and running the
address-table update on any state with the same table, store, and inactive
reads yields a table whose claimed slot holds a CF with the claimed NAME
and no other slot holds that NAME. -/
def claim_ok (s : NMState) (n a : Nat) : Prop :=
  ∃ X1, ucf_finish (ucf_search s n a) n a = X1 ∧
    X1.anyPartnerNeedsInitializing = s.anyPartnerNeedsInitializing ∧
    X1.receiveMessageList = s.receiveMessageList ∧
    ∀ T, (∀ i, tableAt T i = tableAt X1 i) → (∀ cid, getCF T cid = getCF X1 cid) →
      T.inactiveControlFunctions = X1.inactiveControlFunctions →
      T.store.length = X1.store.length →
      T.controlFunctionTable.length = X1.controlFunctionTable.length →
      ∃ c finalT, update_address_table_claim T a = finalT ∧
        tableAt finalT a = some c ∧ (getCF finalT c).name = n ∧
        ∀ i, i ≠ a → ∀ cid, tableAt finalT i = some cid →
          (getCF finalT cid).name ≠ n

/-- Discharging one full `rxFrame`-then-`update()` round from a `claim_ok`
certificate. -/
theorem claim_finish (s : NMState) (f : CANMessageFrame) (b : Bool) (n a : Nat)
    (X1 : NMState)
    (hucf : update_control_functions s f = X1)
    (hX1flag : X1.anyPartnerNeedsInitializing = false)
    (hX1q : X1.receiveMessageList = [])
    (hfpgn : CANIdentifier.get_parameter_group_number f.identifier = AddressClaim_PGN)
    (haa : CANIdentifier.get_source_address f.identifier = a)
    (H : ∀ T, (∀ i, tableAt T i = tableAt X1 i) → (∀ cid, getCF T cid = getCF X1 cid) →
      T.inactiveControlFunctions = X1.inactiveControlFunctions →
      T.store.length = X1.store.length →
      T.controlFunctionTable.length = X1.controlFunctionTable.length →
      ∃ c finalT, update_address_table_claim T a = finalT ∧
        tableAt finalT a = some c ∧ (getCF finalT c).name = n ∧
        ∀ i, i ≠ a → ∀ cid, tableAt finalT i = some cid →
          (getCF finalT cid).name ≠ n) :
    ∃ c, tableAt (update (process_receive_can_message_frame s f) b) a = some c ∧
      (getCF (update (process_receive_can_message_frame s f) b) c).name = n ∧
      ∀ i, i ≠ a → ∀ cid,
        tableAt (update (process_receive_can_message_frame s f) b) i = some cid →
        (getCF (update (process_receive_can_message_frame s f) b) cid).name ≠ n := by
  have hmq : (process_receive_can_message_frame s f).receiveMessageList =
      [{ identifier := f.identifier
         source := get_control_function (update_control_functions s f)
           (CANIdentifier.get_source_address f.identifier)
         destination := get_control_function (update_control_functions s f)
           (CANIdentifier.get_destination_address f.identifier)
         data := f.data.take f.dataLength }] := by
    rw [queue_prcmf, hucf, hX1q]
    rfl
  have hfl : (process_receive_can_message_frame s f).anyPartnerNeedsInitializing =
      false := by
    rw [flag_prcmf, hucf]
    exact hX1flag
  have hupd := update_pipeline (process_receive_can_message_frame s f) b _ a hfl hmq
    hfpgn haa
  obtain ⟨c, finalT, hfeq, hfa, hfnm, hfuniq⟩ :=
    H { process_receive_can_message_frame s f with receiveMessageList := [] }
      (fun i => by rw [← hucf]; rfl) (fun cid => by rw [← hucf]; rfl)
      (by rw [← hucf]; rfl) (by rw [← hucf]; rfl) (by rw [← hucf]; rfl)
  rw [hupd, hfeq]
  refine ⟨c, ?_, ?_, ?_⟩
  · rw [tableAt_update_busload_history]
    exact hfa
  · rw [getCF_update_busload_history]
    exact hfnm
  · intro i hia cid htab
    rw [tableAt_update_busload_history] at htab
    rw [getCF_update_busload_history]
    exact hfuniq i hia cid htab

/-- Address-claim processing when the active-table scan finds a CF already
carrying the claimed NAME: it keeps (or takes over) the claimed slot and no
other slot ends up with that NAME. -/
theorem claim_ok_active (s : NMState) (n a : Nat) (c : CFId)
    (ha : a < 254)
    (hlen : s.controlFunctionTable.length = TABLE_SIZE)
    (hmatch : ∀ i cid, tableAt s i = some cid → (getCF s cid).address = i)
    (hnames : ∀ i j ci cj, tableAt s i = some ci → tableAt s j = some cj →
        (getCF s ci).name = (getCF s cj).name → i = j)
    (hhi : ∀ i cid, tableAt s i = some cid → i < 254)
    (hvalid : ∀ i cid, tableAt s i = some cid → cid < s.store.length)
    (hinact : ∀ x ∈ s.inactiveControlFunctions,
        x < s.store.length ∧ (getCF s x).address = CANIdentifier.NULL_ADDRESS)
    (hfac : ucf_find_active s n = some c) :
    claim_ok s n a := by
  obtain ⟨b0, hb0lt, hb0tab, hb0name⟩ := ucf_find_active_spec s n c hfac
  have hcaddr : (getCF s c).address = b0 := hmatch b0 c hb0tab
  have hb0254 : b0 < 254 := hhi b0 c hb0tab
  have hclen : c < s.store.length := hvalid b0 c hb0tab
  have hsearch : ucf_search s n a = (s, some c) := by
    rw [ucf_search]
    simp only [hfac]
  by_cases hba : b0 = a
  · -- the claimed slot already holds the NAME-n CF: nothing changes
    rw [hba] at hb0tab hcaddr
    have hnoa : null_others_active s (some c) a = s := by
      apply noa_id_of_consistent s (some c) a hmatch
      intro cid htab
      rw [hb0tab] at htab
      exact htab
    have hnoi : null_others_inactive s (some c) a = s :=
      noi_id_of_null_inactive s (some c) a ha (fun x hx => (hinact x hx).2)
    refine ⟨setCF s c { getCF s c with address := a }, ?_, rfl, rfl, ?_⟩
    · rw [hsearch]
      show ucf_assign (ucf_create (null_others_inactive
        (null_others_active s (some c) a) (some c) a) (some c) n a) a = _
      rw [hnoa, hnoi]
      rfl
    · intro T hTtab hTg hTin hTsl hTtl
      have hTc : getCF T c = { getCF s c with address := a } := by
        rw [hTg c]
        exact getCF_setCF_self s c _ hclen
      have hTcaddr : (getCF T c).address = a := by
        rw [hTc]
      have hTcname : (getCF T c).name = (getCF s c).name := by
        rw [hTc, CF_set_addr_name]
      have hTa : tableAt T a = some c := by
        rw [hTtab a, tableAt_setCF]
        exact hb0tab
      refine ⟨c, T, uat_noop T a c ha hTa hTcaddr, hTa, ?_, ?_⟩
      · rw [hTcname]
        exact hb0name
      · intro i hia cid htab
        rw [hTtab i, tableAt_setCF] at htab
        have hcidc : cid ≠ c := by
          intro he
          rw [he] at htab
          exact hia (hnames i a c c htab hb0tab rfl)
        intro hnm
        rw [hTg cid, getCF_setCF_ne s c _ cid (fun he => hcidc he.symm)] at hnm
        exact hia (hnames i a cid c htab hb0tab (by rw [hnm, hb0name]))
  · rcases htabA : tableAt s a with _ | d
    · -- the claimed slot is empty: the NAME-n CF moves from slot b0 to slot a
      have hnoa : null_others_active s (some c) a = s := by
        apply noa_id_of_consistent s (some c) a hmatch
        intro cid htab
        rw [htabA] at htab
        exact Option.noConfusion htab
      have hnoi : null_others_inactive s (some c) a = s :=
        noi_id_of_null_inactive s (some c) a ha (fun x hx => (hinact x hx).2)
      refine ⟨setCF s c { getCF s c with address := a }, ?_, rfl, rfl, ?_⟩
      · rw [hsearch]
        show ucf_assign (ucf_create (null_others_inactive
          (null_others_active s (some c) a) (some c) a) (some c) n a) a = _
        rw [hnoa, hnoi]
        rfl
      · intro T hTtab hTg hTin hTsl hTtl
        have hTlen : T.controlFunctionTable.length = TABLE_SIZE := by
          rw [hTtl, tableLen_setCF, hlen]
        have hTc : getCF T c = { getCF s c with address := a } := by
          rw [hTg c]
          exact getCF_setCF_self s c _ hclen
        have hTcaddr : (getCF T c).address = a := by
          rw [hTc]
        have hTcname : (getCF T c).name = (getCF s c).name := by
          rw [hTc, CF_set_addr_name]
        have hTa : tableAt T a = none := by
          rw [hTtab a, tableAt_setCF]
          exact htabA
        have hTb : tableAt T b0 = some c := by
          rw [hTtab b0, tableAt_setCF]
          exact hb0tab
        have huniqT : ∀ i, i < TABLE_SIZE → i ≠ b0 → ∀ cid, tableAt T i = some cid →
            (getCF T cid).address ≠ a := by
          intro i hi hib0 cid htab
          rw [hTtab i, tableAt_setCF] at htab
          have hcidc : cid ≠ c := by
            intro he
            rw [he] at htab
            exact hib0 (hnames i b0 c c htab hb0tab rfl)
          rw [hTg cid, getCF_setCF_ne s c _ cid (fun he => hcidc he.symm),
            hmatch i cid htab]
          intro hia
          rw [hia] at htab
          rw [htabA] at htab
          exact Option.noConfusion htab
        have huniqI : ∀ x ∈ T.inactiveControlFunctions,
            (getCF T x).address = a → x = c := by
          intro x hx hxaddr
          rw [hTin, inactive_setCF] at hx
          by_cases hxc : x = c
          · exact hxc
          · exfalso
            rw [hTg x, getCF_setCF_ne s c _ x (fun he => hxc he.symm),
              (hinact x hx).2, CANIdentifier.NULL_ADDRESS] at hxaddr
            omega
        obtain ⟨finalT, hfeq, hfa, hfb, hfi, hfnames⟩ :=
          uat_move T a b0 c hTlen ha hb0254 hba (Or.inl hTa) hTb hTcaddr huniqT huniqI
        refine ⟨c, finalT, hfeq, hfa, ?_, ?_⟩
        · rw [hfnames c, hTcname]
          exact hb0name
        · intro i hia cid htab
          by_cases hib0 : i = b0
          · rw [hib0, hfb] at htab
            exact Option.noConfusion htab
          · rw [hfi i hia hib0, hTtab i, tableAt_setCF] at htab
            have hcidc : cid ≠ c := by
              intro he
              rw [he] at htab
              exact hib0 (hnames i b0 c c htab hb0tab rfl)
            intro hnm
            rw [hfnames cid, hTg cid,
              getCF_setCF_ne s c _ cid (fun he => hcidc he.symm)] at hnm
            exact hib0 (hnames i b0 cid c htab hb0tab (by rw [hnm, hb0name]))
    · -- the claimed slot holds a different CF: it is nulled out, then evicted
      have hdc : d ≠ c := by
        intro he
        rw [he] at htabA
        exact hba (hnames b0 a c c hb0tab htabA rfl)
      have hdlen : d < s.store.length := hvalid a d htabA
      have hnoa : null_others_active s (some c) a =
          setCF s d { getCF s d with address := CANIdentifier.NULL_ADDRESS } :=
        noa_single_of_consistent s (some c) a d hmatch hnames ha htabA
          (fun he => hdc (Option.some.inj he).symm)
      have hinact2 : ∀ x ∈ (setCF s d { getCF s d with
          address := CANIdentifier.NULL_ADDRESS }).inactiveControlFunctions,
          (getCF (setCF s d { getCF s d with address := CANIdentifier.NULL_ADDRESS })
            x).address = CANIdentifier.NULL_ADDRESS := by
        intro x hx
        rw [inactive_setCF] at hx
        by_cases hxd : x = d
        · rw [hxd, getCF_setCF_self s d _ hdlen]
        · rw [getCF_setCF_ne s d _ x (fun he => hxd he.symm)]
          exact (hinact x hx).2
      have hnoi : null_others_inactive (setCF s d { getCF s d with
          address := CANIdentifier.NULL_ADDRESS }) (some c) a =
          setCF s d { getCF s d with address := CANIdentifier.NULL_ADDRESS } :=
        noi_id_of_null_inactive _ (some c) a ha hinact2
      set s1 := setCF s d { getCF s d with address := CANIdentifier.NULL_ADDRESS }
        with hs1
      refine ⟨setCF s1 c { getCF s c with address := a }, ?_, rfl, rfl, ?_⟩
      · rw [hsearch]
        show ucf_assign (ucf_create (null_others_inactive
          (null_others_active s (some c) a) (some c) a) (some c) n a) a = _
        rw [hnoa, hnoi]
        show setCF s1 c { getCF s1 c with address := a } = _
        rw [hs1, getCF_setCF_ne s d _ c hdc]
      · intro T hTtab hTg hTin hTsl hTtl
        have hclen1 : c < s1.store.length := by
          rw [hs1, storeLen_setCF]
          exact hclen
        have hTlen : T.controlFunctionTable.length = TABLE_SIZE := by
          rw [hTtl, tableLen_setCF, hs1, tableLen_setCF, hlen]
        have hTc : getCF T c = { getCF s c with address := a } := by
          rw [hTg c]
          exact getCF_setCF_self s1 c _ hclen1
        have hTcaddr : (getCF T c).address = a := by
          rw [hTc]
        have hTcname : (getCF T c).name = (getCF s c).name := by
          rw [hTc, CF_set_addr_name]
        have hTd : getCF T d =
            { getCF s d with address := CANIdentifier.NULL_ADDRESS } := by
          rw [hTg d, getCF_setCF_ne s1 c _ d (fun he => hdc he.symm), hs1]
          exact getCF_setCF_self s d _ hdlen
        have hTdaddr : (getCF T d).address = CANIdentifier.NULL_ADDRESS := by
          rw [hTd]
        have hTdname : (getCF T d).name = (getCF s d).name := by
          rw [hTd, CF_set_addr_name]
        have hTa : tableAt T a = some d := by
          rw [hTtab a, tableAt_setCF, hs1, tableAt_setCF]
          exact htabA
        have hTb : tableAt T b0 = some c := by
          rw [hTtab b0, tableAt_setCF, hs1, tableAt_setCF]
          exact hb0tab
        have huniqT : ∀ i, i < TABLE_SIZE → i ≠ b0 → ∀ cid, tableAt T i = some cid →
            (getCF T cid).address ≠ a := by
          intro i hi hib0 cid htab
          rw [hTtab i, tableAt_setCF, hs1, tableAt_setCF] at htab
          have hcidc : cid ≠ c := by
            intro he
            rw [he] at htab
            exact hib0 (hnames i b0 c c htab hb0tab rfl)
          by_cases hcidd : cid = d
          · rw [hcidd, hTdaddr, CANIdentifier.NULL_ADDRESS]
            omega
          · rw [hTg cid, getCF_setCF_ne s1 c _ cid (fun he => hcidc he.symm), hs1,
              getCF_setCF_ne s d _ cid (fun he => hcidd he.symm), hmatch i cid htab]
            intro hia
            rw [hia] at htab
            rw [htabA] at htab
            exact hcidd (Option.some.inj htab).symm
        have huniqI : ∀ x ∈ T.inactiveControlFunctions,
            (getCF T x).address = a → x = c := by
          intro x hx hxaddr
          rw [hTin, inactive_setCF, hs1, inactive_setCF] at hx
          by_cases hxc : x = c
          · exact hxc
          · exfalso
            by_cases hxd : x = d
            · rw [hxd, hTdaddr, CANIdentifier.NULL_ADDRESS] at hxaddr
              omega
            · rw [hTg x, getCF_setCF_ne s1 c _ x (fun he => hxc he.symm), hs1,
                getCF_setCF_ne s d _ x (fun he => hxd he.symm),
                (hinact x hx).2, CANIdentifier.NULL_ADDRESS] at hxaddr
              omega
        obtain ⟨finalT, hfeq, hfa, hfb, hfi, hfnames⟩ :=
          uat_move T a b0 c hTlen ha hb0254 hba (Or.inr ⟨d, hTa, hTdaddr⟩) hTb
            hTcaddr huniqT huniqI
        refine ⟨c, finalT, hfeq, hfa, ?_, ?_⟩
        · rw [hfnames c, hTcname]
          exact hb0name
        · intro i hia cid htab
          by_cases hib0 : i = b0
          · rw [hib0, hfb] at htab
            exact Option.noConfusion htab
          · rw [hfi i hia hib0, hTtab i, tableAt_setCF, hs1, tableAt_setCF] at htab
            have hcidc : cid ≠ c := by
              intro he
              rw [he] at htab
              exact hib0 (hnames i b0 c c htab hb0tab rfl)
            intro hnm
            rw [hfnames cid] at hnm
            by_cases hcidd : cid = d
            · rw [hcidd] at htab
              exact hia (hnames i a d d htab htabA rfl)
            · rw [hTg cid, getCF_setCF_ne s1 c _ cid (fun he => hcidc he.symm), hs1,
                getCF_setCF_ne s d _ cid (fun he => hcidd he.symm)] at hnm
              exact hib0 (hnames i b0 cid c htab hb0tab (by rw [hnm, hb0name]))

/-- Address-claim processing when the NAME is found on the inactive list:
the inactive CF takes the claimed address and is re-installed in the
claimed slot, and no other slot carries the NAME. -/
theorem claim_ok_inactive (s : NMState) (n a : Nat) (c : CFId)
    (ha : a < 254)
    (hlen : s.controlFunctionTable.length = TABLE_SIZE)
    (hmatch : ∀ i cid, tableAt s i = some cid → (getCF s cid).address = i)
    (hnames : ∀ i j ci cj, tableAt s i = some ci → tableAt s j = some cj →
        (getCF s ci).name = (getCF s cj).name → i = j)
    (hhi : ∀ i cid, tableAt s i = some cid → i < 254)
    (hvalid : ∀ i cid, tableAt s i = some cid → cid < s.store.length)
    (hinact : ∀ x ∈ s.inactiveControlFunctions,
        x < s.store.length ∧ (getCF s x).address = CANIdentifier.NULL_ADDRESS)
    (hfac : ucf_find_active s n = none)
    (hfic : ucf_find_inactive s n = some c) :
    claim_ok s n a := by
  obtain ⟨hcin, hcname⟩ := ucf_find_inactive_spec s n c hfic
  obtain ⟨hclen, hcnull⟩ := hinact c hcin
  have hnoactive := ucf_find_active_none s n hfac
  have hsearch : ucf_search s n a = (s, some c) := by
    rw [ucf_search]
    simp only [hfac, hfic]
  have hcnot : ∀ i, tableAt s i ≠ some c := by
    intro i htab
    have h1 := hmatch i c htab
    rw [hcnull] at h1
    have h2 := hhi i c htab
    rw [CANIdentifier.NULL_ADDRESS] at h1
    omega
  rcases htabA : tableAt s a with _ | d
  · -- the claimed slot is empty
    have hnoa : null_others_active s (some c) a = s := by
      apply noa_id_of_consistent s (some c) a hmatch
      intro cid htab
      rw [htabA] at htab
      exact Option.noConfusion htab
    have hnoi : null_others_inactive s (some c) a = s :=
      noi_id_of_null_inactive s (some c) a ha (fun x hx => (hinact x hx).2)
    refine ⟨setCF s c { getCF s c with address := a }, ?_, rfl, rfl, ?_⟩
    · rw [hsearch]
      show ucf_assign (ucf_create (null_others_inactive
        (null_others_active s (some c) a) (some c) a) (some c) n a) a = _
      rw [hnoa, hnoi]
      rfl
    · intro T hTtab hTg hTin hTsl hTtl
      have hTlen : T.controlFunctionTable.length = TABLE_SIZE := by
        rw [hTtl, tableLen_setCF, hlen]
      have hTc : getCF T c = { getCF s c with address := a } := by
        rw [hTg c]
        exact getCF_setCF_self s c _ hclen
      have hTcaddr : (getCF T c).address = a := by
        rw [hTc]
      have hTcname : (getCF T c).name = (getCF s c).name := by
        rw [hTc, CF_set_addr_name]
      have hTanone : tableAt T a = none := by
        rw [hTtab a, tableAt_setCF]
        exact htabA
      have hTcnot : ∀ i, tableAt T i ≠ some c := by
        intro i htab
        rw [hTtab i, tableAt_setCF] at htab
        exact hcnot i htab
      have hTcin : c ∈ T.inactiveControlFunctions := by
        rw [hTin, inactive_setCF]
        exact hcin
      have huniqT : ∀ i, i < TABLE_SIZE → i ≠ a → ∀ cid, tableAt T i = some cid →
          (getCF T cid).address ≠ a := by
        intro i hi hia cid htab
        rw [hTtab i, tableAt_setCF] at htab
        have hcidc : cid ≠ c := fun he => hcnot i (by rw [← he]; exact htab)
        rw [hTg cid, getCF_setCF_ne s c _ cid (fun he => hcidc he.symm),
          hmatch i cid htab]
        exact hia
      have huniqI : ∀ x ∈ T.inactiveControlFunctions,
          (getCF T x).address = a → x = c := by
        intro x hx hxaddr
        rw [hTin, inactive_setCF] at hx
        by_cases hxc : x = c
        · exact hxc
        · exfalso
          rw [hTg x, getCF_setCF_ne s c _ x (fun he => hxc he.symm),
            (hinact x hx).2, CANIdentifier.NULL_ADDRESS] at hxaddr
          omega
      obtain ⟨finalT, hfeq, hfa, hfi, hfnames⟩ :=
        uat_install T a c hTlen ha (Or.inl hTanone) hTcnot hTcin hTcaddr huniqT huniqI
      refine ⟨c, finalT, hfeq, hfa, ?_, ?_⟩
      · rw [hfnames c, hTcname]
        exact hcname
      · intro i hia cid htab
        rw [hfi i hia, hTtab i, tableAt_setCF] at htab
        have hilt : i < TABLE_SIZE := by
          by_contra hge
          rw [tableAt_none_of_ge_length s i (by rw [hlen]; omega)] at htab
          exact Option.noConfusion htab
        have hcidc : cid ≠ c := fun he => hcnot i (by rw [← he]; exact htab)
        intro hnm
        rw [hfnames cid, hTg cid,
          getCF_setCF_ne s c _ cid (fun he => hcidc he.symm)] at hnm
        exact hnoactive i hilt cid htab hnm
  · -- the claimed slot holds a different CF, which is nulled and evicted
    have hdc : d ≠ c := fun he => hcnot a (by rw [← he]; exact htabA)
    have hdlen : d < s.store.length := hvalid a d htabA
    have hnoa : null_others_active s (some c) a =
        setCF s d { getCF s d with address := CANIdentifier.NULL_ADDRESS } :=
      noa_single_of_consistent s (some c) a d hmatch hnames ha htabA
        (fun he => hdc (Option.some.inj he).symm)
    have hinact2 : ∀ x ∈ (setCF s d { getCF s d with
        address := CANIdentifier.NULL_ADDRESS }).inactiveControlFunctions,
        (getCF (setCF s d { getCF s d with address := CANIdentifier.NULL_ADDRESS })
          x).address = CANIdentifier.NULL_ADDRESS := by
      intro x hx
      rw [inactive_setCF] at hx
      by_cases hxd : x = d
      · rw [hxd, getCF_setCF_self s d _ hdlen]
      · rw [getCF_setCF_ne s d _ x (fun he => hxd he.symm)]
        exact (hinact x hx).2
    have hnoi : null_others_inactive (setCF s d { getCF s d with
        address := CANIdentifier.NULL_ADDRESS }) (some c) a =
        setCF s d { getCF s d with address := CANIdentifier.NULL_ADDRESS } :=
      noi_id_of_null_inactive _ (some c) a ha hinact2
    set s1 := setCF s d { getCF s d with address := CANIdentifier.NULL_ADDRESS }
      with hs1
    refine ⟨setCF s1 c { getCF s c with address := a }, ?_, rfl, rfl, ?_⟩
    · rw [hsearch]
      show ucf_assign (ucf_create (null_others_inactive
        (null_others_active s (some c) a) (some c) a) (some c) n a) a = _
      rw [hnoa, hnoi]
      show setCF s1 c { getCF s1 c with address := a } = _
      rw [hs1, getCF_setCF_ne s d _ c hdc]
    · intro T hTtab hTg hTin hTsl hTtl
      have hclen1 : c < s1.store.length := by
        rw [hs1, storeLen_setCF]
        exact hclen
      have hTlen : T.controlFunctionTable.length = TABLE_SIZE := by
        rw [hTtl, tableLen_setCF, hs1, tableLen_setCF, hlen]
      have hTc : getCF T c = { getCF s c with address := a } := by
        rw [hTg c]
        exact getCF_setCF_self s1 c _ hclen1
      have hTcaddr : (getCF T c).address = a := by
        rw [hTc]
      have hTcname : (getCF T c).name = (getCF s c).name := by
        rw [hTc, CF_set_addr_name]
      have hTd : getCF T d =
          { getCF s d with address := CANIdentifier.NULL_ADDRESS } := by
        rw [hTg d, getCF_setCF_ne s1 c _ d (fun he => hdc he.symm), hs1]
        exact getCF_setCF_self s d _ hdlen
      have hTdaddr : (getCF T d).address = CANIdentifier.NULL_ADDRESS := by
        rw [hTd]
      have hTdname : (getCF T d).name = (getCF s d).name := by
        rw [hTd, CF_set_addr_name]
      have hTa : tableAt T a = some d := by
        rw [hTtab a, tableAt_setCF, hs1, tableAt_setCF]
        exact htabA
      have hTcnot : ∀ i, tableAt T i ≠ some c := by
        intro i htab
        rw [hTtab i, tableAt_setCF, hs1, tableAt_setCF] at htab
        exact hcnot i htab
      have hTcin : c ∈ T.inactiveControlFunctions := by
        rw [hTin, inactive_setCF, hs1, inactive_setCF]
        exact hcin
      have huniqT : ∀ i, i < TABLE_SIZE → i ≠ a → ∀ cid, tableAt T i = some cid →
          (getCF T cid).address ≠ a := by
        intro i hi hia cid htab
        rw [hTtab i, tableAt_setCF, hs1, tableAt_setCF] at htab
        have hcidc : cid ≠ c := fun he => hcnot i (by rw [← he]; exact htab)
        have hcidd : cid ≠ d := by
          intro he
          rw [he] at htab
          exact hia (hnames i a d d htab htabA rfl)
        rw [hTg cid, getCF_setCF_ne s1 c _ cid (fun he => hcidc he.symm), hs1,
          getCF_setCF_ne s d _ cid (fun he => hcidd he.symm), hmatch i cid htab]
        exact hia
      have huniqI : ∀ x ∈ T.inactiveControlFunctions,
          (getCF T x).address = a → x = c := by
        intro x hx hxaddr
        rw [hTin, inactive_setCF, hs1, inactive_setCF] at hx
        by_cases hxc : x = c
        · exact hxc
        · exfalso
          by_cases hxd : x = d
          · rw [hxd, hTdaddr, CANIdentifier.NULL_ADDRESS] at hxaddr
            omega
          · rw [hTg x, getCF_setCF_ne s1 c _ x (fun he => hxc he.symm), hs1,
              getCF_setCF_ne s d _ x (fun he => hxd he.symm),
              (hinact x hx).2, CANIdentifier.NULL_ADDRESS] at hxaddr
            omega
      obtain ⟨finalT, hfeq, hfa, hfi, hfnames⟩ :=
        uat_install T a c hTlen ha (Or.inr ⟨d, hTa, hTdaddr⟩) hTcnot hTcin hTcaddr
          huniqT huniqI
      refine ⟨c, finalT, hfeq, hfa, ?_, ?_⟩
      · rw [hfnames c, hTcname]
        exact hcname
      · intro i hia cid htab
        rw [hfi i hia, hTtab i, tableAt_setCF, hs1, tableAt_setCF] at htab
        have hilt : i < TABLE_SIZE := by
          by_contra hge
          rw [tableAt_none_of_ge_length s i (by rw [hlen]; omega)] at htab
          exact Option.noConfusion htab
        have hcidc : cid ≠ c := fun he => hcnot i (by rw [← he]; exact htab)
        intro hnm
        rw [hfnames cid] at hnm
        by_cases hcidd : cid = d
        · rw [hcidd, hTdname] at hnm
          exact hnoactive a (by rw [TABLE_SIZE]; omega) d htabA hnm
        · rw [hTg cid, getCF_setCF_ne s1 c _ cid (fun he => hcidc he.symm), hs1,
            getCF_setCF_ne s d _ cid (fun he => hcidd he.symm)] at hnm
          exact hnoactive i hilt cid htab hnm

/-- Address-claim processing when the NAME matches a registered partner's
filter set: the partner is bound in place at RX time — it takes the claimed
NAME and address and the claimed slot — and no other slot carries the
NAME. -/
theorem claim_ok_partner (s : NMState) (n a : Nat) (p : CFId)
    (ha : a < 254)
    (hlen : s.controlFunctionTable.length = TABLE_SIZE)
    (hmatch : ∀ i cid, tableAt s i = some cid → (getCF s cid).address = i)
    (hinact : ∀ x ∈ s.inactiveControlFunctions,
        x < s.store.length ∧ (getCF s x).address = CANIdentifier.NULL_ADDRESS)
    (hplen : p < s.store.length)
    (hpnot : ∀ i, tableAt s i ≠ some p)
    (hpninact : p ∉ s.inactiveControlFunctions)
    (hfac : ucf_find_active s n = none)
    (hfic : ucf_find_inactive s n = none)
    (hfp : ucf_find_partner s n = some p) :
    claim_ok s n a := by
  have hnoactive := ucf_find_active_none s n hfac
  have hsearch : ucf_search s n a =
      (setTable (setCF s p { getCF s p with address := a, name := n }) a (some p),
        some p) := by
    rw [ucf_search]
    simp only [hfac, hfic, hfp]
  set s1 := setTable (setCF s p { getCF s p with address := a, name := n }) a
    (some p) with hs1
  have halen : a < (setCF s p { getCF s p with address := a, name := n
      }).controlFunctionTable.length := by
    rw [tableLen_setCF, hlen, TABLE_SIZE]
    omega
  have hs1a : tableAt s1 a = some p := by
    rw [hs1]
    exact tableAt_setTable_self _ a _ halen
  have hs1i : ∀ i, i ≠ a → tableAt s1 i = tableAt s i := by
    intro i hia
    rw [hs1, tableAt_setTable_ne _ a _ i (fun he => hia he.symm), tableAt_setCF]
  have hs1p : getCF s1 p = { getCF s p with address := a, name := n } := by
    rw [hs1, getCF_setTable]
    exact getCF_setCF_self s p _ hplen
  have hs1g : ∀ cid, cid ≠ p → getCF s1 cid = getCF s cid := by
    intro cid hcp
    rw [hs1, getCF_setTable, getCF_setCF_ne s p _ cid (fun he => hcp he.symm)]
  have hs1in : s1.inactiveControlFunctions = s.inactiveControlFunctions := by
    rw [hs1, inactive_setTable, inactive_setCF]
  have hnoa : null_others_active s1 (some p) a = s1 := by
    apply null_others_active_id
    intro i hi cid htab
    by_cases hia : i = a
    · rw [hia, hs1a] at htab
      exact Or.inl htab
    · rw [hs1i i hia] at htab
      right
      have hcp : cid ≠ p := fun he => hpnot i (by rw [← he]; exact htab)
      rw [hs1g cid hcp, hmatch i cid htab]
      exact hia
  have hnoi : null_others_inactive s1 (some p) a = s1 := by
    apply null_others_inactive_id
    intro x hx
    rw [hs1in] at hx
    right
    have hxp : x ≠ p := fun he => hpninact (by rw [← he]; exact hx)
    rw [hs1g x hxp, (hinact x hx).2, CANIdentifier.NULL_ADDRESS]
    omega
  refine ⟨setCF s1 p { getCF s1 p with address := a }, ?_, ?_, ?_, ?_⟩
  · rw [hsearch]
    show ucf_assign (ucf_create (null_others_inactive
      (null_others_active s1 (some p) a) (some p) a) (some p) n a) a = _
    rw [hnoa, hnoi]
    rfl
  · rw [hs1]
    rfl
  · rw [hs1]
    rfl
  · intro T hTtab hTg hTin hTsl hTtl
    have hplen1 : p < s1.store.length := by
      rw [hs1, storeLen_setTable, storeLen_setCF]
      exact hplen
    have hTp : getCF T p = { getCF s1 p with address := a } := by
      rw [hTg p]
      exact getCF_setCF_self s1 p _ hplen1
    have hTpaddr : (getCF T p).address = a := by
      rw [hTp]
    have hTpname : (getCF T p).name = n := by
      rw [hTp, CF_set_addr_name, hs1p]
    have hTa : tableAt T a = some p := by
      rw [hTtab a, tableAt_setCF]
      exact hs1a
    refine ⟨p, T, uat_noop T a p ha hTa hTpaddr, hTa, hTpname, ?_⟩
    intro i hia cid htab
    rw [hTtab i, tableAt_setCF, hs1i i hia] at htab
    have hilt : i < TABLE_SIZE := by
      by_contra hge
      rw [tableAt_none_of_ge_length s i (by rw [hlen]; omega)] at htab
      exact Option.noConfusion htab
    have hcp : cid ≠ p := fun he => hpnot i (by rw [← he]; exact htab)
    intro hnm
    rw [hTg cid, getCF_setCF_ne s1 p _ cid (fun he => hcp he.symm),
      hs1g cid hcp] at hnm
    exact hnoactive i hilt cid htab hnm

/-- Address-claim processing when the NAME matches nothing: a fresh
external CF is created at the claimed address and installed in the claimed
slot, and no other slot carries the NAME. -/
theorem claim_ok_create (s : NMState) (n a : Nat)
    (ha : a < 254)
    (hlen : s.controlFunctionTable.length = TABLE_SIZE)
    (hmatch : ∀ i cid, tableAt s i = some cid → (getCF s cid).address = i)
    (hnames : ∀ i j ci cj, tableAt s i = some ci → tableAt s j = some cj →
        (getCF s ci).name = (getCF s cj).name → i = j)
    (hvalid : ∀ i cid, tableAt s i = some cid → cid < s.store.length)
    (hinact : ∀ x ∈ s.inactiveControlFunctions,
        x < s.store.length ∧ (getCF s x).address = CANIdentifier.NULL_ADDRESS)
    (hfac : ucf_find_active s n = none)
    (hfic : ucf_find_inactive s n = none)
    (hfp : ucf_find_partner s n = none) :
    claim_ok s n a := by
  have hnoactive := ucf_find_active_none s n hfac
  have hsearch : ucf_search s n a = (s, none) := by
    rw [ucf_search]
    simp only [hfac, hfic, hfp]
  rcases htabA : tableAt s a with _ | d
  · -- the claimed slot is empty
    have hnoa : null_others_active s none a = s := by
      apply noa_id_of_consistent s none a hmatch
      intro cid htab
      rw [htabA] at htab
      exact Option.noConfusion htab
    have hnoi : null_others_inactive s none a = s :=
      noi_id_of_null_inactive s none a ha (fun x hx => (hinact x hx).2)
    set s2 := setTable { s with store := s.store ++
      [{ name := n, address := a, typ := CFType.External, filters := [],
         initialized := true }] } a (some s.store.length) with hs2
    refine ⟨setCF s2 s.store.length { getCF s2 s.store.length with address := a },
      ?_, ?_, ?_, ?_⟩
    · rw [hsearch]
      show ucf_assign (ucf_create (null_others_inactive
        (null_others_active s none a) none a) none n a) a = _
      rw [hnoa, hnoi, hs2]
      rfl
    · rw [hs2]
      rfl
    · rw [hs2]
      rfl
    · intro T hTtab hTg hTin hTsl hTtl
      have he2 : s.store.length < s2.store.length := by
        rw [hs2, storeLen_setTable, storeLen_append]
        omega
      have hs2e : getCF s2 s.store.length =
          { name := n, address := a, typ := CFType.External, filters := [], initialized := true } := by
        rw [hs2, getCF_setTable]
        exact getCF_append_self s _
      have hs2lt : ∀ cid, cid < s.store.length → getCF s2 cid = getCF s cid := by
        intro cid hcid
        rw [hs2, getCF_setTable]
        exact getCF_append_lt s _ cid hcid
      have hTe : getCF T s.store.length =
          { getCF s2 s.store.length with address := a } := by
        rw [hTg s.store.length]
        exact getCF_setCF_self s2 s.store.length _ he2
      have hTeaddr : (getCF T s.store.length).address = a := by
        rw [hTe]
      have hTename : (getCF T s.store.length).name = n := by
        rw [hTe, CF_set_addr_name, hs2e]
      have hTa : tableAt T a = some s.store.length := by
        rw [hTtab a, tableAt_setCF, hs2]
        exact tableAt_setTable_self _ a _ (by rw [tableLen_append, hlen, TABLE_SIZE]; omega)
      refine ⟨s.store.length, T, uat_noop T a s.store.length ha hTa hTeaddr, hTa,
        hTename, ?_⟩
      intro i hia cid htab
      rw [hTtab i, tableAt_setCF, hs2,
        tableAt_setTable_ne _ a _ i (fun he => hia he.symm), tableAt_append] at htab
      have hilt : i < TABLE_SIZE := by
        by_contra hge
        rw [tableAt_none_of_ge_length s i (by rw [hlen]; omega)] at htab
        exact Option.noConfusion htab
      have hcidlt : cid < s.store.length := hvalid i cid htab
      intro hnm
      rw [hTg cid, getCF_setCF_ne s2 s.store.length _ cid (Nat.ne_of_gt hcidlt),
        hs2lt cid hcidlt] at hnm
      exact hnoactive i hilt cid htab hnm
  · -- the claimed slot holds a CF, which is nulled and evicted
    have hdlen : d < s.store.length := hvalid a d htabA
    have hnoa : null_others_active s none a =
        setCF s d { getCF s d with address := CANIdentifier.NULL_ADDRESS } :=
      noa_single_of_consistent s none a d hmatch hnames ha htabA
        (fun he => Option.noConfusion he)
    have hinact2 : ∀ x ∈ (setCF s d { getCF s d with
        address := CANIdentifier.NULL_ADDRESS }).inactiveControlFunctions,
        (getCF (setCF s d { getCF s d with address := CANIdentifier.NULL_ADDRESS })
          x).address = CANIdentifier.NULL_ADDRESS := by
      intro x hx
      rw [inactive_setCF] at hx
      by_cases hxd : x = d
      · rw [hxd, getCF_setCF_self s d _ hdlen]
      · rw [getCF_setCF_ne s d _ x (fun he => hxd he.symm)]
        exact (hinact x hx).2
    have hnoi : null_others_inactive (setCF s d { getCF s d with
        address := CANIdentifier.NULL_ADDRESS }) none a =
        setCF s d { getCF s d with address := CANIdentifier.NULL_ADDRESS } :=
      noi_id_of_null_inactive _ none a ha hinact2
    set s1 := setCF s d { getCF s d with address := CANIdentifier.NULL_ADDRESS }
      with hs1
    have hse : s1.store.length = s.store.length := by
      rw [hs1, storeLen_setCF]
    set s2 := setTable { s1 with store := s1.store ++
      [{ name := n, address := a, typ := CFType.External, filters := [],
         initialized := true }] } a (some s1.store.length) with hs2
    refine ⟨setCF s2 s1.store.length { getCF s2 s1.store.length with address := a },
      ?_, ?_, ?_, ?_⟩
    · rw [hsearch]
      show ucf_assign (ucf_create (null_others_inactive
        (null_others_active s none a) none a) none n a) a = _
      rw [hnoa, hnoi, hs2, hs1]
      rfl
    · rw [hs2, hs1]
      rfl
    · rw [hs2, hs1]
      rfl
    · intro T hTtab hTg hTin hTsl hTtl
      have he2 : s1.store.length < s2.store.length := by
        rw [hs2, storeLen_setTable, storeLen_append]
        omega
      have hs2e : getCF s2 s1.store.length =
          { name := n, address := a, typ := CFType.External, filters := [], initialized := true } := by
        rw [hs2, getCF_setTable]
        exact getCF_append_self s1 _
      have hs2lt : ∀ cid, cid < s1.store.length → getCF s2 cid = getCF s1 cid := by
        intro cid hcid
        rw [hs2, getCF_setTable]
        exact getCF_append_lt s1 _ cid hcid
      have hs1d : getCF s1 d =
          { getCF s d with address := CANIdentifier.NULL_ADDRESS } := by
        rw [hs1]
        exact getCF_setCF_self s d _ hdlen
      have hs1g : ∀ cid, cid ≠ d → getCF s1 cid = getCF s cid := by
        intro cid hcd
        rw [hs1, getCF_setCF_ne s d _ cid (fun he => hcd he.symm)]
      have hTe : getCF T s1.store.length =
          { getCF s2 s1.store.length with address := a } := by
        rw [hTg s1.store.length]
        exact getCF_setCF_self s2 s1.store.length _ he2
      have hTeaddr : (getCF T s1.store.length).address = a := by
        rw [hTe]
      have hTename : (getCF T s1.store.length).name = n := by
        rw [hTe, CF_set_addr_name, hs2e]
      have hTa : tableAt T a = some s1.store.length := by
        rw [hTtab a, tableAt_setCF, hs2]
        exact tableAt_setTable_self _ a _ (by
          rw [tableLen_append, hs1, tableLen_setCF, hlen, TABLE_SIZE]; omega)
      refine ⟨s1.store.length, T, uat_noop T a s1.store.length ha hTa hTeaddr, hTa,
        hTename, ?_⟩
      intro i hia cid htab
      rw [hTtab i, tableAt_setCF, hs2,
        tableAt_setTable_ne _ a _ i (fun he => hia he.symm), tableAt_append, hs1,
        tableAt_setCF] at htab
      have hilt : i < TABLE_SIZE := by
        by_contra hge
        rw [tableAt_none_of_ge_length s i (by rw [hlen]; omega)] at htab
        exact Option.noConfusion htab
      have hcidlt : cid < s.store.length := hvalid i cid htab
      intro hnm
      rw [hTg cid, getCF_setCF_ne s2 s1.store.length _ cid
        (by rw [hse]; exact Nat.ne_of_gt hcidlt),
        hs2lt cid (by rw [hse]; exact hcidlt)] at hnm
      by_cases hcidd : cid = d
      · rw [hcidd, hs1d, CF_set_addr_name] at hnm
        exact hnoactive a (by rw [TABLE_SIZE]; omega) d htabA hnm
      · rw [hs1g cid hcidd] at hnm
        exact hnoactive i hilt cid htab hnm

theorem tableAt_initState (i : Nat) : tableAt initState i = none := by
  show (List.replicate TABLE_SIZE (none : Option CFId)).getD i none = none
  rw [List.getD_eq_getElem?_getD, List.getElem?_replicate]
  split
  · rfl
  · rfl

/-- C2, amended. The unqualified claim is refuted by
`C2_claim_uniqueness_violated`: a partner bound during `update()` can
leave two table slots holding the claimed NAME. Amended statement: if no
newly registered partner is awaiting initialization when the claim frame
arrives, then after the network finishes processing an address-claim frame
carrying NAME `n` from a valid source address `a` — starting from a
consistent manager state (slots agree with their occupants' addresses and
sit below 254, occupants have pairwise-distinct NAMEs and valid ids,
inactive CFs hold the null address, registered partners are unbound) —
table slot `a` holds a control function whose NAME is `n` and no other
slot holds a control function with NAME `n`; the pre-existing control
function is located by searching the active table first, then the inactive
list, then the partner list (the search order is the definition of
`ucf_search`, which this proof case-splits in exactly that priority). -/
theorem C2_claim_processing_amended (s : NMState) (f : CANMessageFrame) (b : Bool)
    (hfpgn : CANIdentifier.get_parameter_group_number f.identifier = AddressClaim_PGN)
    (hflen : f.dataLength = CAN_DATA_LENGTH)
    (hsrc : CANIdentifier.get_source_address f.identifier < 254)
    (hlen : s.controlFunctionTable.length = TABLE_SIZE)
    (hq : s.receiveMessageList = [])
    (hflag : s.anyPartnerNeedsInitializing = false)
    (hmatch : ∀ i cid, tableAt s i = some cid → (getCF s cid).address = i)
    (hhi : ∀ i cid, tableAt s i = some cid → i < 254)
    (hvalid : ∀ i cid, tableAt s i = some cid → cid < s.store.length)
    (hnames : ∀ i j ci cj, tableAt s i = some ci → tableAt s j = some cj →
        (getCF s ci).name = (getCF s cj).name → i = j)
    (hinact : ∀ x ∈ s.inactiveControlFunctions,
        x < s.store.length ∧ (getCF s x).address = CANIdentifier.NULL_ADDRESS)
    (hpart : ∀ p ∈ s.partneredControlFunctionList,
        p < s.store.length ∧ (∀ i, tableAt s i ≠ some p) ∧
        p ∉ s.inactiveControlFunctions) :
    ∃ c, tableAt (update (process_receive_can_message_frame s f) b)
        (CANIdentifier.get_source_address f.identifier) = some c ∧
      (getCF (update (process_receive_can_message_frame s f) b) c).name =
        decode_claimed_name f.data ∧
      ∀ i, i ≠ CANIdentifier.get_source_address f.identifier →
        ∀ cid, tableAt (update (process_receive_can_message_frame s f) b) i =
            some cid →
          (getCF (update (process_receive_can_message_frame s f) b) cid).name ≠
            decode_claimed_name f.data := by
  obtain ⟨n, hn⟩ : ∃ m, decode_claimed_name f.data = m := ⟨_, rfl⟩
  obtain ⟨a, haa⟩ : ∃ m, CANIdentifier.get_source_address f.identifier = m := ⟨_, rfl⟩
  rw [haa] at hsrc
  rw [hn, haa]
  have hucf0 : update_control_functions s f = ucf_finish (ucf_search s n a) n a := by
    rw [update_control_functions, if_pos ⟨hfpgn, hflen⟩, hn, haa]
  have hok : claim_ok s n a := by
    rcases hfac : ucf_find_active s n with _ | c
    · rcases hfic : ucf_find_inactive s n with _ | c
      · rcases hfp : ucf_find_partner s n with _ | p
        · exact claim_ok_create s n a hsrc hlen hmatch hnames hvalid hinact
            hfac hfic hfp
        · obtain ⟨hpin, hpfil⟩ := ucf_find_partner_spec s n p hfp
          obtain ⟨hplen, hpnot, hpninact⟩ := hpart p hpin
          exact claim_ok_partner s n a p hsrc hlen hmatch hinact hplen hpnot
            hpninact hfac hfic hfp
      · exact claim_ok_inactive s n a c hsrc hlen hmatch hnames hhi hvalid hinact
          hfac hfic
    · exact claim_ok_active s n a c hsrc hlen hmatch hnames hhi hvalid hinact hfac
  obtain ⟨X1, hucf1, hXf, hXq, H⟩ := hok
  refine claim_finish s f b n a X1 (hucf0.trans hucf1) ?_ ?_ hfpgn haa H
  · rw [hXf]
    exact hflag
  · rw [hXq]
    exact hq

set_option maxRecDepth 100000 in
/-- Witness for C2 amended: a NAME-77 claim of address 10 received by a
fresh network manager and settled by one `update()` leaves exactly one
slot — slot 10 — holding a CF with NAME 77. -/
theorem C2_claim_processing_amended_witness :
    ∃ c, tableAt (update (process_receive_can_message_frame initState
        (address_claim_frame 77 10)) false)
        (CANIdentifier.get_source_address (address_claim_frame 77 10).identifier) =
          some c ∧
      (getCF (update (process_receive_can_message_frame initState
        (address_claim_frame 77 10)) false) c).name =
        decode_claimed_name (address_claim_frame 77 10).data ∧
      ∀ i, i ≠ CANIdentifier.get_source_address (address_claim_frame 77 10).identifier →
        ∀ cid, tableAt (update (process_receive_can_message_frame initState
            (address_claim_frame 77 10)) false) i = some cid →
          (getCF (update (process_receive_can_message_frame initState
            (address_claim_frame 77 10)) false) cid).name ≠
            decode_claimed_name (address_claim_frame 77 10).data :=
  C2_claim_processing_amended initState (address_claim_frame 77 10) false
    (by decide) rfl (by decide) (by decide) rfl rfl
    (fun i cid h => Option.noConfusion ((tableAt_initState i).symm.trans h))
    (fun i cid h => Option.noConfusion ((tableAt_initState i).symm.trans h))
    (fun i cid h => Option.noConfusion ((tableAt_initState i).symm.trans h))
    (fun i j ci cj hi hj hnm => Option.noConfusion ((tableAt_initState i).symm.trans hi))
    (fun x hx => absurd hx (List.not_mem_nil x))
    (fun p hp => absurd hp (List.not_mem_nil p))

/-! ## C7: busload bound refutation -/

/-- A transmit confirmation for a full 8-byte frame (135 modelled on-wire
bits). -/
def full_frame : CANMessageFrame :=
  { identifier := 0x0CFEF11C
    data := [1, 2, 3, 4, 5, 6, 7, 8]
    dataLength := 8
    isExtendedFrame := true }

/-- 372 transmitted frames inside one 100 ms busload bucket, then the
bucket rolls into the history: 50220 bits against a 25000-bit bucket
capacity. -/
def busy_bus_trace : List NMEvent :=
  List.replicate 372 (NMEvent.txFrameConfirm full_frame) ++ [NMEvent.updateTick true]

set_option maxRecDepth 10000 in
/-- C7's bound fails on the code: a reachable accumulator/history state
(372 full frames confirmed within one bucket) yields an estimated busload
of 200.88 percent — nothing clamps the estimate at 100. -/
theorem C7_busload_bound_counterexample :
    100 < get_estimated_busload (run busy_bus_trace).busloadMessageBitsHistory := by
  have h : (run busy_bus_trace).busloadMessageBitsHistory = [50220] := by decide
  rw [h]
  norm_num [get_estimated_busload, BUSLOAD_UPDATE_FREQUENCY_MS]

end IsobusModel

